import Mathlib

/-!
# gdlv information panels: load-state machine, loaders and expansion guard

A shallow embedding of `info.go`.  Package-level variables become fields of
`PkgState`, a goroutine launched with `go` becomes an entry of an in-flight
collection that a later event runs to its end, and every answer of the
debugger backend is an input of the function that models the caller.
-/

namespace Gdlv

/-! ## Data model -/

/-- The kind tags of reflect.Kind, in the order of the Go declaration. -/
inductive Kind
  | Invalid | Bool | Int | Int8 | Int16 | Int32 | Int64
  | Uint | Uint8 | Uint16 | Uint32 | Uint64 | Uintptr
  | Float32 | Float64 | Complex64 | Complex128
  | Array | Chan | Func | Interface | Map | Ptr | Slice | String | Struct
  | UnsafePointer
  deriving DecidableEq, Repr

/-- The fields of api.Variable that info.go reads or writes.  Type is spelled
Typ because the former is reserved. -/
structure Variable where
  Name : String
  Addr : Nat
  OnlyAddr : Bool
  Typ : String
  Kind : Kind
  Value : String
  Len : Int
  Cap : Int
  Children : List Variable
  Unreadable : String

/-- The fields of api.Goroutine used by the goroutines panel. -/
structure Goroutine where
  ID : Int
  ThreadID : Int
  deriving DecidableEq, Repr

/-- The fields of api.Thread used by the threads panel. -/
structure Thread where
  ID : Int
  PC : Nat
  File : String
  Line : Int
  deriving DecidableEq, Repr

/-- The fields of api.Stackframe used by the stacktrace panel. -/
structure Stackframe where
  PC : Nat
  File : String
  Line : Int
  deriving DecidableEq, Repr

/-- The fields of api.Breakpoint used by the breakpoints panel. -/
structure Breakpoint where
  ID : Int
  Name : String
  File : String
  Line : Int
  deriving DecidableEq, Repr

/-- A Go result pair (value, error): the value is present even when the error
is, and err = none stands for a nil error. -/
structure Reply (α : Type) where
  val : α
  err : Option String

/-- The answers the backend client gives to the queries of one load routine. -/
structure Client where
  ListGoroutines : Reply (List Goroutine)
  Stacktrace : Reply (List Stackframe)
  ListThreads : Reply (List Thread)
  ListFunctionArgs : Reply (List Variable)
  ListLocalVariables : Reply (List Variable)
  ListRegisters : Reply String
  ListPackageVariables : Reply (List Variable)
  ListBreakpoints : Reply (List Breakpoint)

/-- The seven load routines a panel can carry in its load field. -/
inductive Loader
  | loadGoroutines | loadStacktrace | loadThreads | loadLocals
  | loadRegs | loadGlobals | loadBreakpoints
  deriving DecidableEq, Repr

/-- The panel record.  The mutex is left out (every method below is one
atomic step) and so is the update callback, whose invocation is recorded in
the output of Update. -/
structure infoPanel where
  loaded : Bool
  loading : Bool
  name : String
  load : Loader
  deriving DecidableEq, Repr

/-- The package-level variables written by the load routines, the text sent
to the scrollback editor, and the number of wnd.Changed() requests. -/
structure PkgState where
  goroutines : List Goroutine
  stack : List Stackframe
  threads : List Thread
  args : List Variable
  locals : List Variable
  regs : String
  globals : List Variable
  breakpoints : List Breakpoint
  scrollback : List String
  wndChanged : Nat

/-! ## Panel methods -/

/-- The method clear: only the loaded flag is written. -/
def infoPanel.clear (l : infoPanel) : infoPanel :=
  { l with loaded := false }

/-- The method done: both flags are written, then a re-render is requested. -/
def infoPanel.done (l : infoPanel) (s : PkgState) : infoPanel × PkgState :=
  ({ l with loading := false, loaded := true }, { s with wndChanged := s.wndChanged + 1 })

/-- What one call of Update reads from outside the panel: whether client is
nil, whether the target is running, and whether GroupBegin returns a window. -/
structure Tick where
  clientNil : Bool
  running : Bool
  groupBegin : Bool
  deriving DecidableEq, Repr

/-- What one call of Update does besides writing the panel: the labels put on
the container, the load routines launched with go, and the number of calls of
the render callback p.update. -/
structure Frame where
  labels : List String
  launched : List Loader
  updateCalls : Nat
  deriving DecidableEq, Repr

/-- The tail of Update, from GroupBegin on. -/
def groupUpdate (t : Tick) (launched : List Loader) : Frame :=
  if t.groupBegin then
    { labels := [], launched := launched, updateCalls := 1 }
  else
    { labels := [], launched := launched, updateCalls := 0 }

/-- The method Update. -/
def infoPanel.Update (p : infoPanel) (t : Tick) : infoPanel × Frame :=
  if p.loading then
    (p, { labels := ["Loading..."], launched := [], updateCalls := 0 })
  else if !p.loaded then
    if t.clientNil then
      (p, { labels := ["Connecting..."], launched := [], updateCalls := 0 })
    else if t.running then
      (p, { labels := ["Running..."], launched := [], updateCalls := 0 })
    else
      ({ p with loading := true }, groupUpdate t [p.load])
  else
    (p, groupUpdate t [])

/-! ## Sorting -/

/-- The three-assignment body shared by every Swap method of the file:
temp := s[i]; s[i] = s[j]; s[j] = temp.  An index out of range panics in Go;
here the slice is returned as it is. -/
def sliceSwap {α : Type} (s : List α) (i j : Nat) : List α :=
  match s[i]?, s[j]? with
  | some x, some y => (s.set i y).set j x
  | _, _ => s

/-- One run of the inner loop of insertionSort in package sort:
for j := i; j > a && data.Less(j, j-1); j-- do data.Swap(j, j-1). -/
def insertionInner {α : Type} (Less : List α → Nat → Nat → Bool)
    (Swap : List α → Nat → Nat → List α) (a : Nat) : Nat → List α → List α
  | 0, data => data
  | j + 1, data =>
    if a < j + 1 && Less data (j + 1) j then
      insertionInner Less Swap a j (Swap data (j + 1) j)
    else data

/-- The routine insertionSort(data, a, b) of package sort: the inner loop is
run for i = a+1, ..., b-1. -/
def insertionSort {α : Type} (Less : List α → Nat → Nat → Bool)
    (Swap : List α → Nat → Nat → List α) (data : List α) (a b : Nat) : List α :=
  (List.range' (a + 1) (b - (a + 1))).foldl
    (fun d i => insertionInner Less Swap a i d) data

/-- The library call sort.Sort(data), driven only by the three methods of
sort.Interface.  The library is not part of the repository; it is embedded by
its insertionSort pass over the whole slice, which is what sort.Sort runs on
a slice of fewer than twelve elements.  On a longer slice the library runs
other passes first and is not stable, so the order it leaves among elements
that compare equal can differ from the order found here; what is proved below
about a sorted panel does not depend on that order. -/
def sortSort {α : Type} (Len : List α → Nat) (Less : List α → Nat → Nat → Bool)
    (Swap : List α → Nat → Nat → List α) (data : List α) : List α :=
  insertionSort Less Swap data 0 (Len data)

/-- The method goroutinesByID.Len. -/
def goroutinesByID.Len (gs : List Goroutine) : Nat := gs.length

/-- The method goroutinesByID.Swap. -/
def goroutinesByID.Swap (gs : List Goroutine) (i j : Nat) : List Goroutine :=
  sliceSwap gs i j

/-- The method goroutinesByID.Less: gs[i].ID < gs[j].ID. -/
def goroutinesByID.Less (gs : List Goroutine) (i j : Nat) : Bool :=
  match gs[i]?, gs[j]? with
  | some x, some y => decide (x.ID < y.ID)
  | _, _ => false

/-- The method threadsByID.Len. -/
def threadsByID.Len (threads : List Thread) : Nat := threads.length

/-- The method threadsByID.Swap. -/
def threadsByID.Swap (threads : List Thread) (i j : Nat) : List Thread :=
  sliceSwap threads i j

/-- The method threadsByID.Less: threads[i].ID < threads[j].ID. -/
def threadsByID.Less (threads : List Thread) (i j : Nat) : Bool :=
  match threads[i]?, threads[j]? with
  | some x, some y => decide (x.ID < y.ID)
  | _, _ => false

/-- Go string comparison, on the characters of the two strings: the first
differing position decides, and a proper initial segment is smaller.  (Go
compares bytes; UTF-8 keeps the order of code points.) -/
def stringLess : List Char → List Char → Bool
  | [], [] => false
  | [], _ :: _ => true
  | _ :: _, [] => false
  | x :: xs, y :: ys =>
    if x.toNat < y.toNat then true
    else if y.toNat < x.toNat then false
    else stringLess xs ys

/-- The method variablesByName.Len. -/
def variablesByName.Len (vars : List Variable) : Nat := vars.length

/-- The method variablesByName.Swap. -/
def variablesByName.Swap (vars : List Variable) (i j : Nat) : List Variable :=
  sliceSwap vars i j

/-- The method variablesByName.Less: vars[i].Name < vars[j].Name. -/
def variablesByName.Less (vars : List Variable) (i j : Nat) : Bool :=
  match vars[i]?, vars[j]? with
  | some x, some y => stringLess x.Name.data y.Name.data
  | _, _ => false

/-- The method breakpointsByID.Len. -/
def breakpointsByID.Len (bps : List Breakpoint) : Nat := bps.length

/-- The method breakpointsByID.Swap. -/
def breakpointsByID.Swap (bps : List Breakpoint) (i j : Nat) : List Breakpoint :=
  sliceSwap bps i j

/-- The method breakpointsByID.Less, as written: bps[i].ID < bps[i].ID, with
the index i on both sides; j is not read. -/
def breakpointsByID.Less (bps : List Breakpoint) (i _j : Nat) : Bool :=
  match bps[i]?, bps[i]? with
  | some x, some y => decide (x.ID < y.ID)
  | _, _ => false

/-! ## Load routines -/

/-- The line fmt.Fprintf writes to the scrollback editor for a failed query:
the fixed text of the call site, the error printed with %v, a newline. -/
def couldNot (what err : String) : String :=
  "Could not " ++ what ++ ": " ++ err ++ "\n"

/-- The function loadGoroutines. -/
def loadGoroutines (p : infoPanel) (s : PkgState) (client : Client) : infoPanel × PkgState :=
  let s1 := { s with goroutines := client.ListGoroutines.val }
  match client.ListGoroutines.err with
  | some err =>
    (p, { s1 with scrollback := s1.scrollback ++ [couldNot "list goroutines" err] })
  | none =>
    let sorted := sortSort goroutinesByID.Len goroutinesByID.Less goroutinesByID.Swap s1.goroutines
    infoPanel.done p { s1 with goroutines := sorted }

/-- The function loadStacktrace. -/
def loadStacktrace (p : infoPanel) (s : PkgState) (client : Client) : infoPanel × PkgState :=
  let s1 := { s with stack := client.Stacktrace.val }
  match client.Stacktrace.err with
  | some err =>
    (p, { s1 with scrollback := s1.scrollback ++ [couldNot "stacktrace" err] })
  | none => infoPanel.done p s1

/-- The function loadThreads. -/
def loadThreads (p : infoPanel) (s : PkgState) (client : Client) : infoPanel × PkgState :=
  let s1 := { s with threads := client.ListThreads.val }
  match client.ListThreads.err with
  | some err =>
    (p, { s1 with scrollback := s1.scrollback ++ [couldNot "list threads" err] })
  | none =>
    let sorted := sortSort threadsByID.Len threadsByID.Less threadsByID.Swap s1.threads
    infoPanel.done p { s1 with threads := sorted }

/-- The closure changename of loadLocals, with the map m passed in and out.
The counters are Go ints that count up from 0 along one slice, far below the
range of int, and are kept as naturals; %d prints them in decimal. -/
def changename (m : String → Option Nat) (v : Variable) : (String → Option Nat) × Variable :=
  match m v.Name with
  | some n =>
    let n1 := n + 1
    (fun k => if k = v.Name then some n1 else m k,
      { v with Name := v.Name ++ "(" ++ toString n1 ++ ")" })
  | none =>
    (fun k => if k = v.Name then some 0 else m k, v)

/-- A loop for i := range vars: changename(&vars[i]). -/
def changenameEach (m : String → Option Nat) : List Variable → (String → Option Nat) × List Variable
  | [] => (m, [])
  | v :: vs =>
    let r := changename m v
    let rs := changenameEach r.1 vs
    (rs.1, r.2 :: rs.2)

/-- The two loops that end loadLocals: an empty map, then changename over
args, then over locals. -/
def changenameWalk (args locals : List Variable) : List Variable × List Variable :=
  let ra := changenameEach (fun _ => none) args
  let rl := changenameEach ra.1 locals
  (ra.2, rl.2)

/-- The function loadLocals. -/
def loadLocals (p : infoPanel) (s : PkgState) (client : Client) : infoPanel × PkgState :=
  let s1 := { s with args := client.ListFunctionArgs.val }
  match client.ListFunctionArgs.err with
  | some err =>
    (p, { s1 with scrollback := s1.scrollback ++ [couldNot "list function arguments" err] })
  | none =>
    let s2 := { s1 with locals := client.ListLocalVariables.val }
    match client.ListLocalVariables.err with
    | some err =>
      (p, { s2 with scrollback := s2.scrollback ++ [couldNot "list local variables" err] })
    | none =>
      let a := sortSort variablesByName.Len variablesByName.Less variablesByName.Swap s2.args
      let l := sortSort variablesByName.Len variablesByName.Less variablesByName.Swap s2.locals
      let w := changenameWalk a l
      infoPanel.done p { s2 with args := w.1, locals := w.2 }

/-- The function loadRegs. -/
def loadRegs (p : infoPanel) (s : PkgState) (client : Client) : infoPanel × PkgState :=
  let s1 := { s with regs := client.ListRegisters.val }
  match client.ListRegisters.err with
  | some err =>
    (p, { s1 with scrollback := s1.scrollback ++ [couldNot "list registers" err] })
  | none => infoPanel.done p s1

/-- The function loadGlobals. -/
def loadGlobals (p : infoPanel) (s : PkgState) (client : Client) : infoPanel × PkgState :=
  let s1 := { s with globals := client.ListPackageVariables.val }
  match client.ListPackageVariables.err with
  | some err =>
    (p, { s1 with scrollback := s1.scrollback ++ [couldNot "list global variabless" err] })
  | none =>
    let sorted := sortSort variablesByName.Len variablesByName.Less variablesByName.Swap s1.globals
    infoPanel.done p { s1 with globals := sorted }

/-- The function loadBreakpoints: the sort comes before the test of err. -/
def loadBreakpoints (p : infoPanel) (s : PkgState) (client : Client) : infoPanel × PkgState :=
  let s1 := { s with breakpoints := client.ListBreakpoints.val }
  let sorted := sortSort breakpointsByID.Len breakpointsByID.Less breakpointsByID.Swap s1.breakpoints
  let s2 := { s1 with breakpoints := sorted }
  match client.ListBreakpoints.err with
  | some err =>
    (p, { s2 with scrollback := s2.scrollback ++ [couldNot "list breakpoints" err] })
  | none => infoPanel.done p s2

/-- The call p.load(p): the routine stored in the load field of the panel. -/
def infoPanel.runLoad (p : infoPanel) (s : PkgState) (client : Client) : infoPanel × PkgState :=
  match p.load with
  | .loadGoroutines => loadGoroutines p s client
  | .loadStacktrace => loadStacktrace p s client
  | .loadThreads => loadThreads p s client
  | .loadLocals => loadLocals p s client
  | .loadRegs => loadRegs p s client
  | .loadGlobals => loadGlobals p s client
  | .loadBreakpoints => loadBreakpoints p s client

/-- Whether a backend call made by the load routine of the panel answers with
an error.  loadLocals makes its second call only when the first succeeded. -/
def infoPanel.loadFails (p : infoPanel) (client : Client) : Bool :=
  match p.load with
  | .loadGoroutines => client.ListGoroutines.err.isSome
  | .loadStacktrace => client.Stacktrace.err.isSome
  | .loadThreads => client.ListThreads.err.isSome
  | .loadLocals => client.ListFunctionArgs.err.isSome || client.ListLocalVariables.err.isSome
  | .loadRegs => client.ListRegisters.err.isSome
  | .loadGlobals => client.ListPackageVariables.err.isSome
  | .loadBreakpoints => client.ListBreakpoints.err.isSome

/-! ## The panel as a transition system -/

/-- The three operations on the flags of a panel, in any interleaving. -/
inductive FlagEvent
  | update (t : Tick)
  | done
  | clear

/-- One operation on the flags. -/
def flagStep (ps : infoPanel × PkgState) : FlagEvent → infoPanel × PkgState
  | .update t => ((ps.1.Update t).1, ps.2)
  | .done => ps.1.done ps.2
  | .clear => (ps.1.clear, ps.2)

/-- A panel, the package state, and the load routines of the panel that were
launched with go and have not returned yet. -/
structure PanelSys where
  panel : infoPanel
  state : PkgState
  inflight : List Loader

/-- What can happen to a panel: a render tick, a call of clear, and the run
to its end of the i-th load routine in flight, with the answers in client. -/
inductive PanelEvent
  | tick (t : Tick)
  | clear
  | finish (i : Nat) (client : Client)

/-- One event.  A finish event for a routine that is not in flight does
nothing. -/
def panelStep (sys : PanelSys) : PanelEvent → PanelSys
  | .tick t =>
    let r := sys.panel.Update t
    { sys with panel := r.1, inflight := sys.inflight ++ r.2.launched }
  | .clear => { sys with panel := sys.panel.clear }
  | .finish i client =>
    match sys.inflight[i]? with
    | none => sys
    | some _ =>
      let r := sys.panel.runLoad sys.state client
      { panel := r.1, state := r.2, inflight := sys.inflight.eraseIdx i }

/-- The system at process start: both flags false, nothing in flight. -/
def panelInit (name : String) (load : Loader) (s : PkgState) : PanelSys :=
  { panel := { loaded := false, loading := false, name := name, load := load },
    state := s, inflight := [] }

/-! ## The expansion guard -/

/-- The three expansion triggers. -/
inductive Expansion
  | loadMoreMap | loadMoreArrayOrSlice | loadMoreStruct
  deriving DecidableEq, Repr

/-- The verb %#x on an address: 0x and lower-case hexadecimal digits. -/
def fmtHex (n : Nat) : String := "0x" ++ String.mk (Nat.toDigits 16 n)

/-- What strconv.Quote writes for one character: a backslash (code 92) before
a double quote (code 34) and before a backslash, the character itself when it is printable, the
short escape for bell, backspace, form feed, newline, carriage return, tab and
vertical tab, and backslash x with two hexadecimal digits for the other
control characters of ASCII.  A character above ASCII is taken as printable
(the Unicode tables of the library are not modelled). -/
def quoteRune (c : Char) : List Char :=
  if c.toNat = 34 then [Char.ofNat 92, c]
  else if c.toNat = 92 then [Char.ofNat 92, c]
  else if c.toNat = 7 then [Char.ofNat 92, 'a']
  else if c.toNat = 8 then [Char.ofNat 92, 'b']
  else if c.toNat = 12 then [Char.ofNat 92, 'f']
  else if c.toNat = 10 then [Char.ofNat 92, 'n']
  else if c.toNat = 13 then [Char.ofNat 92, 'r']
  else if c.toNat = 9 then [Char.ofNat 92, 't']
  else if c.toNat = 11 then [Char.ofNat 92, 'v']
  else if c.toNat < 32 ∨ c.toNat = 127 then
    [Char.ofNat 92, 'x', Nat.digitChar (c.toNat / 16), Nat.digitChar (c.toNat % 16)]
  else [c]

/-- The verb %q on a string: the text between double quotes (code 34), each
character written as strconv.Quote writes it. -/
def goQuote (s : String) : String :=
  String.mk (Char.ofNat 34 :: ((s.data.map quoteRune).flatten ++ [Char.ofNat 34]))

/-- The expression loadMoreMap and loadMoreArrayOrSlice send to EvalVariable,
fmt.Sprintf("(*(*%q)(%#x))[%d:]", typ, addr, from). -/
def sliceExpr (typ : String) (addr from_ : Nat) : String :=
  "(*(*" ++ goQuote typ ++ ")(" ++ fmtHex addr ++ "))[" ++ toString from_ ++ ":]"

/-- The expression loadMoreStruct sends, fmt.Sprintf("*(*%q)(%#x)", typ, addr). -/
def structExpr (typ : String) (addr : Nat) : String :=
  "*(*" ++ goQuote typ ++ ")(" ++ fmtHex addr ++ ")"

/-- The expression the goroutine of a trigger evaluates for the node v. -/
def Expansion.expr (k : Expansion) (v : Variable) : String :=
  match k with
  | .loadMoreMap => sliceExpr v.Typ v.Addr (v.Children.length / 2)
  | .loadMoreArrayOrSlice => sliceExpr v.Typ v.Addr v.Children.length
  | .loadMoreStruct => structExpr v.Typ v.Addr

/-- What the goroutine of loadMoreMap does to the node, given the answer of
EvalVariable. -/
def loadMoreMapNode (v : Variable) (r : Reply Variable) : Variable :=
  match r.err with
  | some _ => { v with Len := Int.ofNat (v.Children.length / 2) }
  | none => { v with Children := v.Children ++ r.val.Children }

/-- What the goroutine of loadMoreArrayOrSlice does to the node. -/
def loadMoreArrayOrSliceNode (v : Variable) (r : Reply Variable) : Variable :=
  match r.err with
  | some _ => { v with Len := Int.ofNat v.Children.length }
  | none => { v with Children := v.Children ++ r.val.Children }

/-- What the goroutine of loadMoreStruct does to the node. -/
def loadMoreStructNode (v : Variable) (r : Reply Variable) : Variable :=
  match r.err with
  | some err => { v with Unreadable := err }
  | none => { r.val with Name := v.Name }

/-- The node after the goroutine of the trigger k. -/
def Expansion.node (k : Expansion) (v : Variable) (r : Reply Variable) : Variable :=
  match k with
  | .loadMoreMap => loadMoreMapNode v r
  | .loadMoreArrayOrSlice => loadMoreArrayOrSliceNode v r
  | .loadMoreStruct => loadMoreStructNode v r

/-- The lines the goroutine of the trigger k writes to the scrollback editor:
one line on failure for the two slicing triggers, none for loadMoreStruct. -/
def Expansion.logLines (k : Expansion) (v : Variable) (r : Reply Variable) : List String :=
  match k, r.err with
  | .loadMoreStruct, _ => []
  | _, none => []
  | _, some err => ["Error loading array contents " ++ k.expr v ++ ": " ++ err ++ "\n"]

/-- The state the expansion triggers work on: the flag additionalLoadRunning
(its mutex is left out, a trigger and the tail of a goroutine being one step
each), the goroutines launched and not yet finished, each with the index of
the node its pointer v refers to, the nodes, the expressions sent to
client.EvalVariable so far, the scrollback text and the wnd.Changed() count. -/
structure Expander where
  additionalLoadRunning : Bool
  inflight : List (Expansion × Nat)
  nodes : List Variable
  evalCalls : List String
  scrollback : List String
  wndChanged : Nat

/-- The common shape of loadMoreMap, loadMoreArrayOrSlice and loadMoreStruct
up to the go statement: test the flag, set it, launch the goroutine. -/
def Expander.trigger (e : Expander) (k : Expansion) (v : Nat) : Expander :=
  if !e.additionalLoadRunning then
    { e with additionalLoadRunning := true, inflight := e.inflight ++ [(k, v)] }
  else e

/-- The function loadMoreMap, on the node with index v. -/
def loadMoreMap (e : Expander) (v : Nat) : Expander := e.trigger .loadMoreMap v

/-- The function loadMoreArrayOrSlice, on the node with index v. -/
def loadMoreArrayOrSlice (e : Expander) (v : Nat) : Expander :=
  e.trigger .loadMoreArrayOrSlice v

/-- The function loadMoreStruct, on the node with index v. -/
def loadMoreStruct (e : Expander) (v : Nat) : Expander := e.trigger .loadMoreStruct v

/-- The goroutine launched by a trigger, run from its first statement to its
last: the evaluation call, the write to the node, the re-render request and
the reset of the flag. -/
def Expander.runGoroutine (e : Expander) (k : Expansion) (v : Nat) (r : Reply Variable) :
    Expander :=
  match e.nodes[v]? with
  | none => { e with additionalLoadRunning := false, wndChanged := e.wndChanged + 1 }
  | some node =>
    { e with
      additionalLoadRunning := false
      nodes := e.nodes.set v (k.node node r)
      evalCalls := e.evalCalls ++ [k.expr node]
      scrollback := e.scrollback ++ k.logLines node r
      wndChanged := e.wndChanged + 1 }

/-- What can happen to the expander: one of the three triggers on a node, or
the completion of the i-th goroutine in flight with the answer r. -/
inductive ExpanderEvent
  | trigger (k : Expansion) (v : Nat)
  | complete (i : Nat) (r : Reply Variable)

/-- One event.  A completion for a goroutine that is not in flight does
nothing. -/
def expanderStep (e : Expander) : ExpanderEvent → Expander
  | .trigger .loadMoreMap v => loadMoreMap e v
  | .trigger .loadMoreArrayOrSlice v => loadMoreArrayOrSlice e v
  | .trigger .loadMoreStruct v => loadMoreStruct e v
  | .complete i r =>
    match e.inflight[i]? with
    | none => e
    | some kv =>
      let e1 := { e with inflight := e.inflight.eraseIdx i }
      e1.runGoroutine kv.1 kv.2 r

/-- The expander at process start, over the given nodes. -/
def expanderInit (nodes : List Variable) : Expander :=
  { additionalLoadRunning := false, inflight := [], nodes := nodes, evalCalls := [],
    scrollback := [], wndChanged := 0 }

/-! ## Rendering a variable -/

/-- The name reflect.Kind.String gives to a kind tag, which is what the verb
%s prints for v.Kind. -/
def kindName : Kind → String
  | .Invalid => "invalid" | .Bool => "bool" | .Int => "int" | .Int8 => "int8"
  | .Int16 => "int16" | .Int32 => "int32" | .Int64 => "int64" | .Uint => "uint"
  | .Uint8 => "uint8" | .Uint16 => "uint16" | .Uint32 => "uint32" | .Uint64 => "uint64"
  | .Uintptr => "uintptr" | .Float32 => "float32" | .Float64 => "float64"
  | .Complex64 => "complex64" | .Complex128 => "complex128" | .Array => "array"
  | .Chan => "chan" | .Func => "func" | .Interface => "interface" | .Map => "map"
  | .Ptr => "ptr" | .Slice => "slice" | .String => "string" | .Struct => "struct"
  | .UnsafePointer => "unsafe.Pointer"

/-- The answers of the widget toolkit that steer showVariable: whether the
tree node with a given title is open (w.TreePush) and whether the button with
a given text was clicked (w.ButtonText). -/
structure UI where
  TreePush : String → Bool
  ButtonText : String → Bool

/-- What showVariable does, in order: the labels, tree nodes and buttons it
puts on the window, and the calls of the expansion triggers it makes with the
node they are made on.  Layout calls (Row, Scrollbar, TreePop) are left out. -/
inductive Draw
  | label (text : String)
  | tree (title : String)
  | button (text : String)
  | call (k : Expansion) (v : Variable)

/-- The first statement of showVariable: the name shown for the node, from
the name handed in, the type and, when addr is set, the address. -/
def displayName (addr : Bool) (name : String) (v : Variable) : String :=
  if v.Typ ≠ "" then
    if addr then
      if name ≠ "" then fmtHex v.Addr ++ " " ++ name ++ " " ++ v.Typ
      else fmtHex v.Addr ++ " " ++ v.Typ
    else
      if name ≠ "" then name ++ " " ++ v.Typ
      else v.Typ
  else
    if addr then
      if name ≠ "" then fmtHex v.Addr ++ " " ++ name
      else fmtHex v.Addr
    else name

/-- The end of showArrayOrSliceContents: when len(v.Children) != int(v.Len),
a button reading N more, and the call loadMoreArrayOrSlice(v) if it is
clicked.  The difference int(v.Len)-len(v.Children) is taken in the integers;
the code takes it in 64 bits, which is the same number unless v.Len is so far
below zero that the subtraction overflows. -/
def moreArrayOrSlice (ui : UI) (v : Variable) : List Draw :=
  if (v.Children.length : Int) ≠ v.Len then
    let text := toString (v.Len - (v.Children.length : Int)) ++ " more"
    if ui.ButtonText text then [.button text, .call .loadMoreArrayOrSlice v]
    else [.button text]
  else []

/-- The end of the reflect.Map case of showVariable: when
len(v.Children)/2 != int(v.Len), a button reading N more, and the call
loadMoreMap(v) if it is clicked.  The difference is taken in the integers, as
in moreArrayOrSlice. -/
def moreMap (ui : UI) (v : Variable) : List Draw :=
  if ((v.Children.length / 2 : Nat) : Int) ≠ v.Len then
    let text := toString (v.Len - ((v.Children.length / 2 : Nat) : Int)) ++ " more"
    if ui.ButtonText text then [.button text, .call .loadMoreMap v]
    else [.button text]
  else []

/-- The name given to the value of a map pair that is shown inline:
[%q] of the key text for a string key, [%s] of it otherwise. -/
def keyName (key : Variable) : String :=
  if key.Kind = .String then "[" ++ goQuote key.Value ++ "]" else "[" ++ key.Value ++ "]"

mutual

/-- The function showVariable.  The answer none stands for the run-time panic
of an index out of range (v.Children[0] without children, a map with an odd
number of children). -/
def showVariable (ui : UI) (depth : Nat) (addr : Bool) (name : String) :
    Variable → Option (List Draw)
  | ⟨Name, Addr, OnlyAddr, Typ, Kind, Value, Len, Cap, Children, Unreadable⟩ =>
    let v : Variable := ⟨Name, Addr, OnlyAddr, Typ, Kind, Value, Len, Cap, Children, Unreadable⟩
    let name := displayName addr name v
    if Unreadable ≠ "" then
      some [.label (name ++ " = (unreadable " ++ Unreadable ++ ")")]
    else if 0 < depth ∧ Addr = 0 then
      some [.label (name ++ " = nil%!(EXTRA string=" ++ Typ ++ ")")]
    else
      match Kind with
      | .Slice =>
        if ui.TreePush name then
          (showElements ui depth addr 0 Children).map fun rows =>
            .tree name ::
              .label ("len: " ++ toString Len ++ " cap: " ++ toString Cap) ::
              (rows ++ moreArrayOrSlice ui v)
        else some [.tree name]
      | .Array =>
        if ui.TreePush name then
          (showElements ui depth addr 0 Children).map fun rows =>
            .tree name :: .label ("len: " ++ toString Len) :: (rows ++ moreArrayOrSlice ui v)
        else some [.tree name]
      | .Ptr =>
        if Typ = "" then some [.label (name ++ " = nil")]
        else
          match Children with
          | [] => none
          | c :: _ =>
            if c.Addr = 0 then some [.label (name ++ " = nil")]
            else if c.OnlyAddr ∧ c.Addr ≠ 0 then
              some [.label (name ++ " = (" ++ Typ ++ ")(" ++ fmtHex c.Addr ++ ")")]
            else if ui.TreePush name then
              (showVariable ui (depth + 1) addr "" c).map fun rows => .tree name :: rows
            else some [.tree name]
      | .UnsafePointer =>
        match Children with
        | [] => none
        | c :: _ => some [.label (name ++ " = unsafe.Pointer(" ++ fmtHex c.Addr ++ ")")]
      | .String =>
        if (Value.utf8ByteSize : Int) ≠ Len then
          some [.label (name ++ " = " ++ goQuote Value),
                .label (toString (Len - (Value.utf8ByteSize : Int)) ++ " more")]
        else some [.label (name ++ " = " ++ goQuote Value)]
      | .Chan =>
        if Children.length = 0 then some [.label (name ++ " = nil")]
        else if ui.TreePush name then
          (showStructContents ui depth addr Children).map fun rows => .tree name :: rows
        else some [.tree name]
      | .Struct =>
        if ui.TreePush name then
          if Len ≠ (Children.length : Int) ∧ Children.length = 0 then
            some [.tree name, .call .loadMoreStruct v, .label "Loading..."]
          else
            (showStructContents ui depth addr Children).map fun rows => .tree name :: rows
        else some [.tree name]
      | .Interface =>
        match Children with
        | [] => none
        | ⟨cName, cAddr, cOnlyAddr, cTyp, cKind, cValue, cLen, cCap, cChildren, cUnreadable⟩ :: _ =>
          let c : Variable :=
            ⟨cName, cAddr, cOnlyAddr, cTyp, cKind, cValue, cLen, cCap, cChildren, cUnreadable⟩
          if cKind = .Invalid then some [.label (name ++ " = nil")]
          else if ui.TreePush name then
            if cKind = .Ptr then
              match cChildren with
              | [] => none
              | g :: _ =>
                (showVariable ui (depth + 1) addr "data" g).map fun rows => .tree name :: rows
            else
              (showVariable ui (depth + 1) addr "data" c).map fun rows => .tree name :: rows
          else some [.tree name]
      | .Map =>
        if ui.TreePush name then
          (showMapPairs ui depth addr 0 Children).map fun rows =>
            .tree name :: (rows ++ moreMap ui v)
        else some [.tree name]
      | .Func =>
        if Value = "" then some [.label (name ++ " = nil")]
        else some [.label (name ++ " = " ++ Value)]
      | .Complex64 | .Complex128 =>
        match Children with
        | re :: im :: _ => some [.label (name ++ " = (" ++ re.Value ++ " + " ++ im.Value ++ "i)")]
        | _ => none
      | _ =>
        if Value ≠ "" then some [.label (name ++ " = " ++ Value)]
        else some [.label (name ++ " = (unknown " ++ kindName Kind ++ ")")]

/-- The loop of showArrayOrSliceContents over the children from index i on:
each child is shown under the name [i]. -/
def showElements (ui : UI) (depth : Nat) (addr : Bool) (i : Nat) :
    List Variable → Option (List Draw)
  | [] => some []
  | c :: cs =>
    match showVariable ui (depth + 1) addr ("[" ++ toString i ++ "]") c with
    | none => none
    | some rows => (showElements ui depth addr (i + 1) cs).map fun more => rows ++ more

/-- The function showStructContents: each child is shown under its own name. -/
def showStructContents (ui : UI) (depth : Nat) (addr : Bool) :
    List Variable → Option (List Draw)
  | [] => some []
  | c :: cs =>
    match showVariable ui (depth + 1) addr c.Name c with
    | none => none
    | some rows => (showStructContents ui depth addr cs).map fun more => rows ++ more

/-- The loop of the reflect.Map case over the children from index i on, two
at a time, key then value: a key without children whose text is shorter than
minInlineKeyValueLen = 20 bytes names the row of its value, any other pair is
shown as a key row and a value row numbered i/2. -/
def showMapPairs (ui : UI) (depth : Nat) (addr : Bool) (i : Nat) :
    List Variable → Option (List Draw)
  | [] => some []
  | [_] => none
  | key :: value :: rest =>
    let pair :=
      if key.Children.length = 0 ∧ key.Value.utf8ByteSize < 20 then
        showVariable ui (depth + 1) addr (keyName key) value
      else
        match showVariable ui (depth + 1) addr ("[" ++ toString (i / 2) ++ " key]") key with
        | none => none
        | some rows =>
          (showVariable ui (depth + 1) addr ("[" ++ toString (i / 2) ++ " value]") value).map
            fun more => rows ++ more
    match pair with
    | none => none
    | some rows => (showMapPairs ui depth addr (i + 2) rest).map fun more => rows ++ more

end

/-- The function showArrayOrSliceContents: the children, then the affordance
for the children not yet loaded. -/
def showArrayOrSliceContents (ui : UI) (depth : Nat) (addr : Bool) (v : Variable) :
    Option (List Draw) :=
  (showElements ui depth addr 0 v.Children).map fun rows => rows ++ moreArrayOrSlice ui v

/-! ## Invariants -/

/-- The single-flight invariant of a panel: at most one load routine in flight, and the
panel is loading while one is. -/
def PanelSys.singleFlight (sys : PanelSys) : Prop :=
  sys.inflight.length ≤ 1 ∧ (sys.inflight ≠ [] → sys.panel.loading = true)

/-- The single-flight invariant of the expander: at most one expansion goroutine in flight, and
the flag additionalLoadRunning is set while one is. -/
def Expander.singleFlight (e : Expander) : Prop :=
  e.inflight.length ≤ 1 ∧ (e.inflight ≠ [] → e.additionalLoadRunning = true)

/-- The map of changename after the names in seen have been walked: a name
that occurred c > 0 times is bound to c - 1, any other name is unbound. -/
def countsOf (seen : List String) (m : String → Option Nat) : Prop :=
  ∀ k, m k = if seen.count k = 0 then none else some (seen.count k - 1)

/-- The value of a decimal digit character. -/
def digitValue (c : Char) : Nat := c.toNat - 48

/-- The number a text of decimal digits stands for. -/
def decimalValue (cs : List Char) : Nat :=
  cs.foldl (fun acc c => acc * 10 + digitValue c) 0

/-! ## Sample inputs -/

/-- A package state with one cached goroutine, two cached arguments and one
cached local, and nothing else. -/
def sampleState : PkgState :=
  { goroutines := [{ ID := 7, ThreadID := 0 }], stack := [], threads := [],
    args := [{ Name := "old", Addr := 0, OnlyAddr := false, Typ := "int", Kind := .Int,
               Value := "1", Len := 0, Cap := 0, Children := [], Unreadable := "" },
             { Name := "older", Addr := 0, OnlyAddr := false, Typ := "int", Kind := .Int,
               Value := "2", Len := 0, Cap := 0, Children := [], Unreadable := "" }],
    locals := [{ Name := "loc", Addr := 0, OnlyAddr := false, Typ := "int", Kind := .Int,
                 Value := "3", Len := 0, Cap := 0, Children := [], Unreadable := "" }],
    regs := "", globals := [], breakpoints := [], scrollback := [], wndChanged := 0 }

/-- A scalar variable with the given name. -/
def namedVar (name : String) : Variable :=
  { Name := name, Addr := 0, OnlyAddr := false, Typ := "int", Kind := .Int,
    Value := "0", Len := 0, Cap := 0, Children := [], Unreadable := "" }

/-- A backend whose every query succeeds with an empty answer. -/
def emptyClient : Client :=
  { ListGoroutines := { val := [], err := none },
    Stacktrace := { val := [], err := none },
    ListThreads := { val := [], err := none },
    ListFunctionArgs := { val := [], err := none },
    ListLocalVariables := { val := [], err := none },
    ListRegisters := { val := "", err := none },
    ListPackageVariables := { val := [], err := none },
    ListBreakpoints := { val := [], err := none } }

/-- A backend whose ListGoroutines fails, answering a nil slice and an error. -/
def goroutinesDown : Client :=
  { emptyClient with ListGoroutines := { val := [], err := some "connection is shut down" } }

/-- A backend whose ListFunctionArgs succeeds with one argument and whose
ListLocalVariables fails, answering a nil slice and an error. -/
def localsDown : Client :=
  { emptyClient with
    ListFunctionArgs := { val := [namedVar "a"], err := none }
    ListLocalVariables := { val := [], err := some "connection is shut down" } }

/-- A backend whose every query succeeds: five goroutines and four threads
out of order with repeated IDs, and the breakpoints 2 and 1 in this order. -/
def busyClient : Client :=
  { emptyClient with
    ListGoroutines :=
      { val := [{ ID := 3, ThreadID := 0 }, { ID := 1, ThreadID := 1 }, { ID := 2, ThreadID := 0 },
                { ID := 1, ThreadID := 2 }, { ID := 0, ThreadID := 0 }], err := none }
    ListThreads :=
      { val := [{ ID := 9, PC := 0, File := "a.go", Line := 1 },
                { ID := 4, PC := 0, File := "b.go", Line := 2 },
                { ID := 9, PC := 8, File := "c.go", Line := 3 },
                { ID := 1, PC := 0, File := "d.go", Line := 4 }], err := none }
    ListBreakpoints :=
      { val := [{ ID := 2, Name := "", File := "main.go", Line := 20 },
                { ID := 1, Name := "", File := "main.go", Line := 10 }], err := none } }

/-- A backend whose ListFunctionArgs answers x, y and whose ListLocalVariables
answers x, x, both without error. -/
def shadowClient : Client :=
  { emptyClient with
    ListFunctionArgs := { val := [namedVar "x", namedVar "y"], err := none }
    ListLocalVariables := { val := [namedVar "x", namedVar "x"], err := none } }

/-- The goroutines panel in the middle of a load. -/
def goroutinesLoading : infoPanel :=
  { loaded := false, loading := true, name := "goroutines", load := .loadGoroutines }

/-- The locals panel in the middle of a load. -/
def localsLoading : infoPanel :=
  { loaded := false, loading := true, name := "locals", load := .loadLocals }

/-- The stacktrace panel before any load. -/
def stackFresh : infoPanel :=
  { loaded := false, loading := false, name := "stacktrace", load := .loadStacktrace }

/-- A map node with two of its five pairs materialized. -/
def mapNode : Variable :=
  { Name := "m", Addr := 4096, OnlyAddr := false, Typ := "map[int]int", Kind := .Map,
    Value := "", Len := 5, Cap := 0,
    Children := [namedVar "", namedVar "", namedVar "", namedVar ""], Unreadable := "" }

/-- A struct node none of whose three fields is materialized. -/
def structNode : Variable :=
  { Name := "st", Addr := 8192, OnlyAddr := false, Typ := "main.T", Kind := .Struct,
    Value := "", Len := 3, Cap := 0, Children := [], Unreadable := "" }

/-- The expander right after loadMoreMap was triggered on the map node. -/
def busyExpander : Expander := loadMoreMap (expanderInit [mapNode, structNode]) 0

/-- A readable int variable with the given value text. -/
def intVar (value : String) : Variable :=
  { Name := "", Addr := 8, OnlyAddr := false, Typ := "int", Kind := .Int,
    Value := value, Len := 0, Cap := 0, Children := [], Unreadable := "" }

/-- A map node of logical length 10 with four pairs materialized. -/
def tenMap : Variable :=
  { Name := "m", Addr := 4096, OnlyAddr := false, Typ := "map[int]int", Kind := .Map,
    Value := "", Len := 10, Cap := 0,
    Children := [intVar "1", intVar "10", intVar "2", intVar "20",
                 intVar "3", intVar "30", intVar "4", intVar "40"],
    Unreadable := "" }

/-- A slice node of logical length 5 with two elements materialized. -/
def fiveSlice : Variable :=
  { Name := "s", Addr := 2048, OnlyAddr := false, Typ := "[]int", Kind := .Slice,
    Value := "", Len := 5, Cap := 8, Children := [intVar "7", intVar "8"], Unreadable := "" }

/-- A successful answer of EvalVariable carrying the six pairs that tenMap
lacks. -/
def sixPairs : Reply Variable :=
  { val := { tenMap with
             Children := [intVar "5", intVar "50", intVar "6", intVar "60", intVar "7",
                          intVar "70", intVar "8", intVar "80", intVar "9", intVar "90",
                          intVar "10", intVar "100"] },
    err := none }

/-- A failed answer of EvalVariable. -/
def failedEval : Reply Variable :=
  { val := namedVar "", err := some "could not read memory" }

/-- A successful answer of EvalVariable for the struct node: its three
fields, under the name the backend derives from the expression. -/
def structFetched : Reply Variable :=
  { val := { Name := "*(*\"main.T\")(0x2000)", Addr := 8192, OnlyAddr := false,
             Typ := "main.T", Kind := .Struct, Value := "", Len := 3, Cap := 0,
             Children := [namedVar "a", namedVar "b", namedVar "c"], Unreadable := "" },
    err := none }

/-- A window in which every tree node is open and no button is clicked. -/
def allOpen : UI := { TreePush := fun _ => true, ButtonText := fun _ => false }

/-- A render tick with the client connected, the target stopped and the group
of the panel on screen. -/
def readyTick : Tick := { clientNil := false, running := false, groupBegin := true }

/-! ## Load completion and the panel flags -/

/-- C1, as the code has it: whichever of the seven load routines the panel
carries and whatever the backend answers, the routine returns with the panel
untouched when one of its queries failed, and with loading = false and
loaded = true (every other field kept) when none did. -/
theorem runLoad_panel (p : infoPanel) (s : PkgState) (client : Client) :
    (p.runLoad s client).1 =
      if p.loadFails client then p else { p with loading := false, loaded := true } := by
  unfold infoPanel.runLoad infoPanel.loadFails
  cases hl : p.load
  · simp only [loadGoroutines]
    cases client.ListGoroutines.err <;> simp [infoPanel.done, hl]
  · simp only [loadStacktrace]
    cases client.Stacktrace.err <;> simp [infoPanel.done, hl]
  · simp only [loadThreads]
    cases client.ListThreads.err <;> simp [infoPanel.done, hl]
  · simp only [loadLocals]
    cases client.ListFunctionArgs.err <;> cases client.ListLocalVariables.err <;>
      simp [infoPanel.done, hl]
  · simp only [loadRegs]
    cases client.ListRegisters.err <;> simp [infoPanel.done, hl]
  · simp only [loadGlobals]
    cases client.ListPackageVariables.err <;> simp [infoPanel.done, hl]
  · simp only [loadBreakpoints]
    cases client.ListBreakpoints.err <;> simp [infoPanel.done, hl]

/-- C1 fails as stated: loadGoroutines, started on a panel with loading = true
and loaded = false, returns after a failed ListGoroutines with the panel still
at loading = true and loaded = false. -/
theorem loadGoroutines_error_keeps_loading :
    ¬ ((loadGoroutines goroutinesLoading sampleState goroutinesDown).1.loading = false ∧
       (loadGoroutines goroutinesLoading sampleState goroutinesDown).1.loaded = true) := by
  decide

/-- The invariant of C2 is kept by each of the three operations. -/
theorem flagStep_inv (ps : infoPanel × PkgState) (ev : FlagEvent)
    (h : ¬ (ps.1.loading = true ∧ ps.1.loaded = true)) :
    ¬ ((flagStep ps ev).1.loading = true ∧ (flagStep ps ev).1.loaded = true) := by
  cases ev with
  | update t =>
    simp only [flagStep, infoPanel.Update]
    cases h1 : ps.1.loading <;> cases h2 : ps.1.loaded <;>
      cases t.clientNil <;> cases t.running <;> simp_all
  | done => simp [flagStep, infoPanel.done]
  | clear => simp [flagStep, infoPanel.clear]

/-- The invariant of C2 is kept by every run. -/
theorem flagRun_inv (events : List FlagEvent) (ps : infoPanel × PkgState)
    (h : ¬ (ps.1.loading = true ∧ ps.1.loaded = true)) :
    ¬ ((events.foldl flagStep ps).1.loading = true ∧
       (events.foldl flagStep ps).1.loaded = true) := by
  induction events generalizing ps with
  | nil => simpa using h
  | cons ev rest ih =>
    simp only [List.foldl_cons]
    exact ih _ (flagStep_inv ps ev h)

/-- C2: from a panel with loading = false and loaded = false, after any finite
sequence of Update, done and clear calls in any order, loading and loaded are
not both true. -/
theorem loading_loaded_never_both (name : String) (load : Loader) (s : PkgState)
    (events : List FlagEvent) :
    ¬ ((events.foldl flagStep
          ({ loaded := false, loading := false, name := name, load := load }, s)).1.loading = true ∧
       (events.foldl flagStep
          ({ loaded := false, loading := false, name := name, load := load }, s)).1.loaded = true) :=
  flagRun_inv events _ (by simp)

/-! ## Single flight per panel -/

/-- Update on a loading panel writes nothing and launches nothing. -/
theorem Update_of_loading (p : infoPanel) (t : Tick) (h : p.loading = true) :
    p.Update t = (p, { labels := ["Loading..."], launched := [], updateCalls := 0 }) := by
  simp [infoPanel.Update, h]

/-- Update launches at most the load routine of the panel, and only from a
panel that is not loading, which it leaves loading. -/
theorem Update_launched (p : infoPanel) (t : Tick) :
    ((p.Update t).2.launched = [] ∧ (p.Update t).1.loading = p.loading) ∨
    ((p.Update t).2.launched = [p.load] ∧ p.loading = false ∧
      (p.Update t).1.loading = true) := by
  obtain ⟨loaded, loading, name, load⟩ := p
  unfold infoPanel.Update groupUpdate
  cases loading <;> cases loaded <;> cases t.clientNil <;> cases t.running <;>
    cases t.groupBegin <;> simp

/-- Every event keeps the single-flight invariant. -/
theorem panelStep_singleFlight (sys : PanelSys) (ev : PanelEvent)
    (h : sys.singleFlight) : (panelStep sys ev).singleFlight := by
  obtain ⟨hlen, hload⟩ := h
  cases ev with
  | tick t =>
    rcases Update_launched sys.panel t with ⟨h1, h2⟩ | ⟨h1, h2, h3⟩
    · simp only [PanelSys.singleFlight, panelStep, h1, List.append_nil, h2]
      exact ⟨hlen, hload⟩
    · have hnil : sys.inflight = [] := by
        by_contra hne
        have := hload hne
        rw [h2] at this
        exact Bool.false_ne_true this
      simp [PanelSys.singleFlight, panelStep, h1, hnil, h3]
  | clear =>
    simp only [PanelSys.singleFlight, panelStep, infoPanel.clear]
    exact ⟨hlen, hload⟩
  | finish i client =>
    simp only [panelStep]
    cases hi : sys.inflight[i]? with
    | none => exact ⟨hlen, hload⟩
    | some l =>
      have hlt : i < sys.inflight.length := by
        rcases List.getElem?_eq_some_iff.mp hi with ⟨hlt, _⟩
        exact hlt
      have hz : (sys.inflight.eraseIdx i).length = 0 := by
        rw [List.length_eraseIdx, if_pos hlt]
        omega
      have hnil : sys.inflight.eraseIdx i = [] := List.length_eq_zero.mp hz
      simp [PanelSys.singleFlight, hnil]

/-- Every run from a single-flight state ends in a single-flight state. -/
theorem panelRun_singleFlight (events : List PanelEvent) (sys : PanelSys)
    (h : sys.singleFlight) : (events.foldl panelStep sys).singleFlight := by
  induction events generalizing sys with
  | nil => exact h
  | cons ev rest ih => exact ih _ (panelStep_singleFlight sys ev h)

/-- C3: a render tick on a panel with loading = true launches no load routine
and leaves the panel, loading and loaded included, as it was; and after any
finite sequence of render ticks, clear calls and terminations of load routines
(failed or not) from process start, at most one load routine of the panel is
in flight. -/
theorem single_flight_per_panel :
    (∀ (p : infoPanel) (t : Tick), p.loading = true →
      (p.Update t).2.launched = [] ∧ (p.Update t).1 = p) ∧
    (∀ (name : String) (load : Loader) (s : PkgState) (events : List PanelEvent),
      (events.foldl panelStep (panelInit name load s)).inflight.length ≤ 1) := by
  refine ⟨fun p t h => ?_, fun name load s events => ?_⟩
  · rw [Update_of_loading p t h]
    exact ⟨rfl, rfl⟩
  · exact (panelRun_singleFlight events (panelInit name load s)
      ⟨by simp [panelInit], by simp [panelInit]⟩).1

/-- C3 at a concrete panel: the goroutines panel in the middle of a load,
ticked with the backend ready, and a run with two ticks before the load
routine ends in failure and two ticks after. -/
theorem single_flight_per_panel_witness :
    goroutinesLoading.loading = true ∧
    ((goroutinesLoading.Update readyTick).2.launched = [] ∧
      (goroutinesLoading.Update readyTick).1 = goroutinesLoading) ∧
    ([PanelEvent.tick readyTick, PanelEvent.tick readyTick,
        PanelEvent.finish 0 goroutinesDown, PanelEvent.tick readyTick,
        PanelEvent.clear, PanelEvent.tick readyTick].foldl panelStep
        (panelInit "goroutines" .loadGoroutines sampleState)).inflight.length ≤ 1 :=
  ⟨by decide, single_flight_per_panel.1 goroutinesLoading readyTick (by decide),
    single_flight_per_panel.2 _ _ _ _⟩

/-! ## Invalidation -/

/-- C4 fails as stated: clear() on a panel with loading = true and
loaded = false leaves loading = true, so the panel is not in NotLoaded. -/
theorem clear_keeps_loading :
    ¬ (goroutinesLoading.clear.loading = false ∧ goroutinesLoading.clear.loaded = false) := by
  decide

/-- C4, as the code has it: after clear() the panel has loaded = false and
the value of loading it had before; when that value is false the panel is in
NotLoaded, and the next render tick with the client connected and the target
not running sets loading and launches the load routine of the panel, once. -/
theorem clear_resets_loaded (p : infoPanel) :
    p.clear.loaded = false ∧ p.clear.loading = p.loading ∧
    (∀ t : Tick, p.loading = false → t.clientNil = false → t.running = false →
      (p.clear.Update t).1.loading = true ∧ (p.clear.Update t).2.launched = [p.load]) := by
  refine ⟨rfl, rfl, fun t h1 h2 h3 => ?_⟩
  unfold infoPanel.Update groupUpdate infoPanel.clear
  cases t.groupBegin <;> simp [h1, h2, h3]

/-- C4 at a concrete panel: the stacktrace panel after a finished load, then
cleared, then ticked with the backend ready. -/
theorem clear_resets_loaded_witness :
    ({ stackFresh with loaded := true } : infoPanel).clear.loaded = false ∧
    ((({ stackFresh with loaded := true } : infoPanel).clear.Update readyTick).1.loading = true ∧
     (({ stackFresh with loaded := true } : infoPanel).clear.Update readyTick).2.launched =
        [Loader.loadStacktrace]) :=
  ⟨(clear_resets_loaded { stackFresh with loaded := true }).1,
    (clear_resets_loaded { stackFresh with loaded := true }).2.2 readyTick
      (by decide) (by decide) (by decide)⟩

/-! ## The tick that starts a load -/

/-- C5 fails as stated: on a panel with loading = false and loaded = false,
with the client connected and the target not running, the tick that launches
the load routine puts no placeholder label on the container and calls the
render routine p.update once when GroupBegin returns a window. -/
theorem Update_start_renders :
    ¬ ((stackFresh.Update readyTick).2.updateCalls = 0) ∧
    (stackFresh.Update readyTick).2.labels = [] := by
  decide

/-- C5, as the code has it: on a panel with loading = false and
loaded = false, with the client connected and the target not running, Update
sets loading (nothing else of the panel changes), launches exactly the load
routine of the panel, puts no placeholder label on the container, and calls
the render routine p.update once if GroupBegin returns a window and not at
all otherwise. -/
theorem Update_start (p : infoPanel) (t : Tick) (h1 : p.loading = false)
    (h2 : p.loaded = false) (h3 : t.clientNil = false) (h4 : t.running = false) :
    (p.Update t).1 = { p with loading := true } ∧
    (p.Update t).2.launched = [p.load] ∧
    (p.Update t).2.labels = [] ∧
    (p.Update t).2.updateCalls = if t.groupBegin then 1 else 0 := by
  unfold infoPanel.Update groupUpdate
  cases t.groupBegin <;> simp [h1, h2, h3, h4]

/-- C5 at a concrete panel: the stacktrace panel before any load, ticked with
the backend ready and the group on screen. -/
theorem Update_start_witness :
    (stackFresh.Update readyTick).1 = { stackFresh with loading := true } ∧
    (stackFresh.Update readyTick).2.launched = [Loader.loadStacktrace] ∧
    (stackFresh.Update readyTick).2.labels = [] ∧
    (stackFresh.Update readyTick).2.updateCalls = if readyTick.groupBegin then 1 else 0 :=
  Update_start stackFresh readyTick (by decide) (by decide) (by decide) (by decide)

/-! ## What a failed query leaves in the caches -/

/-- C6 fails as stated: after loadGoroutines with a failing ListGoroutines the
cached goroutines are the nil slice the call returned, not the goroutine
cached before; and after loadLocals with a successful ListFunctionArgs and a
failing ListLocalVariables the cached args and locals are the two answers,
not the variables cached before. -/
theorem failed_load_overwrites_cache :
    (loadGoroutines goroutinesLoading sampleState goroutinesDown).2.goroutines
        ≠ sampleState.goroutines ∧
    (loadLocals localsLoading sampleState localsDown).2.args.map Variable.Name
        ≠ sampleState.args.map Variable.Name ∧
    (loadLocals localsLoading sampleState localsDown).2.locals.map Variable.Name
        ≠ sampleState.locals.map Variable.Name := by
  decide

/-- C6, as the code has it: when a backend call of the load routine answers
with an error, the package state after the routine differs from the state
before it only in the scrollback text and in the cache variables the routine
assigned on its way: the variable assigned from the failing call holds the
value that call returned beside the error (for breakpoints after the sort.Sort
pass, which loadBreakpoints runs before it tests the error), and in loadLocals
with a failing ListLocalVariables args holds the answer of ListFunctionArgs,
neither sorted nor renamed. -/
theorem failed_load_state (p : infoPanel) (s : PkgState) (client : Client)
    (h : p.loadFails client = true) :
    (p.runLoad s client).2 =
      match p.load with
      | .loadGoroutines =>
        { s with goroutines := client.ListGoroutines.val,
                 scrollback := (p.runLoad s client).2.scrollback }
      | .loadStacktrace =>
        { s with stack := client.Stacktrace.val,
                 scrollback := (p.runLoad s client).2.scrollback }
      | .loadThreads =>
        { s with threads := client.ListThreads.val,
                 scrollback := (p.runLoad s client).2.scrollback }
      | .loadLocals =>
        if client.ListFunctionArgs.err.isSome then
          { s with args := client.ListFunctionArgs.val,
                   scrollback := (p.runLoad s client).2.scrollback }
        else
          { s with args := client.ListFunctionArgs.val,
                   locals := client.ListLocalVariables.val,
                   scrollback := (p.runLoad s client).2.scrollback }
      | .loadRegs =>
        { s with regs := client.ListRegisters.val,
                 scrollback := (p.runLoad s client).2.scrollback }
      | .loadGlobals =>
        { s with globals := client.ListPackageVariables.val,
                 scrollback := (p.runLoad s client).2.scrollback }
      | .loadBreakpoints =>
        { s with breakpoints := sortSort breakpointsByID.Len breakpointsByID.Less
                   breakpointsByID.Swap client.ListBreakpoints.val,
                 scrollback := (p.runLoad s client).2.scrollback } := by
  unfold infoPanel.loadFails at h
  unfold infoPanel.runLoad
  cases hl : p.load <;> rw [hl] at h <;> simp only at h ⊢
  · simp only [loadGoroutines]
    cases he : client.ListGoroutines.err <;> simp_all
  · simp only [loadStacktrace]
    cases he : client.Stacktrace.err <;> simp_all
  · simp only [loadThreads]
    cases he : client.ListThreads.err <;> simp_all
  · simp only [loadLocals]
    cases he : client.ListFunctionArgs.err <;> cases he2 : client.ListLocalVariables.err <;>
      simp_all
  · simp only [loadRegs]
    cases he : client.ListRegisters.err <;> simp_all
  · simp only [loadGlobals]
    cases he : client.ListPackageVariables.err <;> simp_all
  · simp only [loadBreakpoints]
    cases he : client.ListBreakpoints.err <;> simp_all

/-- C6 at a concrete run: loadLocals with a successful ListFunctionArgs and a
failing ListLocalVariables. -/
theorem failed_load_state_witness :
    localsLoading.loadFails localsDown = true ∧
    (localsLoading.runLoad sampleState localsDown).2 =
      { sampleState with
        args := [namedVar "a"], locals := [],
        scrollback := (localsLoading.runLoad sampleState localsDown).2.scrollback } :=
  ⟨by decide, failed_load_state localsLoading sampleState localsDown (by decide)⟩

/-! ## sort.Sort with a comparator that compares keys -/

section InsertionSort

variable {α : Type}

/-- Reading the two slots after an initial segment. -/
theorem getElem?_after (l : List α) (y x : α) (post : List α) :
    (l ++ y :: x :: post)[l.length]? = some y ∧
    (l ++ y :: x :: post)[l.length + 1]? = some x := by
  induction l with
  | nil => simp
  | cons a l ih => simpa using ih

/-- Swapping the two slots after an initial segment. -/
theorem sliceSwap_after (l : List α) (y x : α) (post : List α) :
    sliceSwap (l ++ y :: x :: post) (l.length + 1) l.length = l ++ x :: y :: post := by
  have h := getElem?_after l y x post
  simp only [sliceSwap, h.1, h.2]
  simp

variable (key : α → Int) (Less : List α → Nat → Nat → Bool)
  (Swap : List α → Nat → Nat → List α)

/-- One run of the inner loop, started on the slot after a segment l, moves
the element x of that slot down past the elements with a larger key. -/
theorem insertionInner_spec
    (hLess : ∀ d i j x y, d[i]? = some x → d[j]? = some y →
      Less d i j = decide (key x < key y))
    (hSwap : ∀ d i j, Swap d i j = sliceSwap d i j)
    (l : List α) (x : α) (post : List α) :
    ∃ l1 l2, l = l1 ++ l2 ∧
      insertionInner Less Swap 0 l.length (l ++ x :: post) = l1 ++ x :: (l2 ++ post) ∧
      (∀ y ∈ l2, key x < key y) ∧
      (l1 = [] ∨ ∃ front y, l1 = front ++ [y] ∧ key y ≤ key x) := by
  induction l using List.reverseRecOn generalizing post with
  | nil => exact ⟨[], [], rfl, rfl, by simp, Or.inl rfl⟩
  | append_singleton l y ih =>
    have hidx := getElem?_after l y x post
    have hdata : (l ++ [y]) ++ x :: post = l ++ y :: x :: post := by simp
    have hlen : (l ++ [y]).length = l.length + 1 := by simp
    rw [hdata, hlen]
    unfold insertionInner
    rw [hLess _ _ _ x y hidx.2 hidx.1, hSwap, sliceSwap_after]
    by_cases hlt : key x < key y
    · obtain ⟨l1, l2, h1, h2, h3, h4⟩ := ih (y :: post)
      refine ⟨l1, l2 ++ [y], ?_, ?_, ?_, h4⟩
      · rw [h1]; simp
      · simp [hlt, h2]
      · intro z hz
        rcases List.mem_append.mp hz with hz | hz
        · exact h3 z hz
        · simp at hz; rw [hz]; exact hlt
    · refine ⟨l ++ [y], [], by simp, ?_, by simp, Or.inr ⟨l, y, rfl, ?_⟩⟩
      · simp [hlt]
      · omega

/-- Putting x after the last element not above it keeps a sorted list sorted. -/
theorem pairwise_insert_middle (l1 l2 : List α) (x : α)
    (hs : (l1 ++ l2).Pairwise (fun a b => key a ≤ key b))
    (h2 : ∀ y ∈ l2, key x < key y)
    (h1 : l1 = [] ∨ ∃ front y, l1 = front ++ [y] ∧ key y ≤ key x) :
    (l1 ++ x :: l2).Pairwise (fun a b => key a ≤ key b) := by
  rw [List.pairwise_append] at hs ⊢
  obtain ⟨hs1, hs2, hs12⟩ := hs
  refine ⟨hs1, ?_, ?_⟩
  · rw [List.pairwise_cons]
    exact ⟨fun y hy => le_of_lt (h2 y hy), hs2⟩
  · have hx : ∀ a ∈ l1, key a ≤ key x := by
      rcases h1 with h1 | ⟨front, y, h1, hy⟩
      · intro a ha; rw [h1] at ha; simp at ha
      · intro a ha
        rw [h1] at ha hs1
        rcases List.mem_append.mp ha with ha | ha
        · rw [List.pairwise_append] at hs1
          have := hs1.2.2 a ha y (by simp)
          omega
        · simp at ha; rw [ha]; exact hy
    intro a ha b hb
    rcases List.mem_cons.mp hb with hb | hb
    · rw [hb]; exact hx a ha
    · exact hs12 a ha b hb

/-- The outer loop, started with a sorted segment in front, ends with a
sorted rearrangement of the whole slice. -/
theorem insertionLoop_spec
    (hLess : ∀ d i j x y, d[i]? = some x → d[j]? = some y →
      Less d i j = decide (key x < key y))
    (hSwap : ∀ d i j, Swap d i j = sliceSwap d i j)
    (rest front : List α)
    (hs : front.Pairwise (fun a b => key a ≤ key b)) :
    ((List.range' front.length rest.length).foldl
        (fun d i => insertionInner Less Swap 0 i d) (front ++ rest)).Perm (front ++ rest) ∧
    ((List.range' front.length rest.length).foldl
        (fun d i => insertionInner Less Swap 0 i d) (front ++ rest)).Pairwise
        (fun a b => key a ≤ key b) := by
  induction rest generalizing front with
  | nil => simpa using hs
  | cons x rest ih =>
    obtain ⟨l1, l2, h1, h2, h3, h4⟩ := insertionInner_spec key Less Swap hLess hSwap front x rest
    have hs2 : (l1 ++ x :: l2).Pairwise (fun a b => key a ≤ key b) :=
      pairwise_insert_middle key l1 l2 x (h1 ▸ hs) h3 h4
    have hlen : (l1 ++ x :: l2).length = front.length + 1 := by
      rw [h1]; simp; omega
    have hdata : l1 ++ x :: (l2 ++ rest) = (l1 ++ x :: l2) ++ rest := by simp
    have ih2 := ih (l1 ++ x :: l2) hs2
    rw [hlen] at ih2
    simp only [List.length_cons, List.range'_succ, List.foldl_cons, h2, hdata]
    refine ⟨ih2.1.trans ?_, ih2.2⟩
    rw [h1]
    simp only [List.append_assoc, List.cons_append]
    exact List.Perm.append_left l1 List.perm_middle.symm

/-- With a comparator that compares keys, sort.Sort returns a rearrangement
of its argument with keys in non-decreasing order. -/
theorem sortSort_spec (Len : List α → Nat)
    (hLen : ∀ d, Len d = d.length)
    (hLess : ∀ d i j x y, d[i]? = some x → d[j]? = some y →
      Less d i j = decide (key x < key y))
    (hSwap : ∀ d i j, Swap d i j = sliceSwap d i j)
    (data : List α) :
    (sortSort Len Less Swap data).Perm data ∧
    (sortSort Len Less Swap data).Pairwise (fun a b => key a ≤ key b) := by
  unfold sortSort insertionSort
  rw [hLen]
  cases data with
  | nil => simp
  | cons x rest =>
    have := insertionLoop_spec key Less Swap hLess hSwap rest [x] (by simp)
    simpa using this

end InsertionSort

/-! ## The sorted panels -/

/-- goroutinesByID.Less compares the IDs of the two slots. -/
theorem goroutinesByID_Less_eq (d : List Goroutine) (i j : Nat) (x y : Goroutine)
    (hi : d[i]? = some x) (hj : d[j]? = some y) :
    goroutinesByID.Less d i j = decide (x.ID < y.ID) := by
  simp [goroutinesByID.Less, hi, hj]

/-- threadsByID.Less compares the IDs of the two slots. -/
theorem threadsByID_Less_eq (d : List Thread) (i j : Nat) (x y : Thread)
    (hi : d[i]? = some x) (hj : d[j]? = some y) :
    threadsByID.Less d i j = decide (x.ID < y.ID) := by
  simp [threadsByID.Less, hi, hj]

/-- C8: after a successful ListGoroutines (resp. ListThreads), whatever the
order of the fetched list and whatever IDs repeat in it, loadGoroutines (resp.
loadThreads) leaves in the cache a permutation of the fetched list that is
non-decreasing by ID; and goroutinesByID.Less and threadsByID.Less, on two
slots of the slice, are the strict order ID_i < ID_j. -/
theorem goroutines_threads_sorted (p : infoPanel) (s : PkgState) (client : Client) :
    (client.ListGoroutines.err = none →
      (loadGoroutines p s client).2.goroutines.Perm client.ListGoroutines.val ∧
      (loadGoroutines p s client).2.goroutines.Pairwise (fun a b => a.ID ≤ b.ID)) ∧
    (client.ListThreads.err = none →
      (loadThreads p s client).2.threads.Perm client.ListThreads.val ∧
      (loadThreads p s client).2.threads.Pairwise (fun a b => a.ID ≤ b.ID)) ∧
    (∀ (gs : List Goroutine) (i j : Nat) (x y : Goroutine),
      gs[i]? = some x → gs[j]? = some y →
      (goroutinesByID.Less gs i j = true ↔ x.ID < y.ID)) ∧
    (∀ (ts : List Thread) (i j : Nat) (x y : Thread),
      ts[i]? = some x → ts[j]? = some y →
      (threadsByID.Less ts i j = true ↔ x.ID < y.ID)) := by
  refine ⟨fun h => ?_, fun h => ?_, fun gs i j x y hi hj => ?_, fun ts i j x y hi hj => ?_⟩
  · have hsort := sortSort_spec Goroutine.ID goroutinesByID.Less goroutinesByID.Swap
      goroutinesByID.Len (fun _ => rfl) goroutinesByID_Less_eq (fun _ _ _ => rfl)
      client.ListGoroutines.val
    simpa [loadGoroutines, h, infoPanel.done] using hsort
  · have hsort := sortSort_spec Thread.ID threadsByID.Less threadsByID.Swap
      threadsByID.Len (fun _ => rfl) threadsByID_Less_eq (fun _ _ _ => rfl)
      client.ListThreads.val
    simpa [loadThreads, h, infoPanel.done] using hsort
  · simp [goroutinesByID_Less_eq gs i j x y hi hj]
  · simp [threadsByID_Less_eq ts i j x y hi hj]

/-- C8 at a concrete backend: five goroutines and four threads out of order,
with repeated IDs. -/
theorem goroutines_threads_sorted_witness :
    ((loadGoroutines goroutinesLoading sampleState busyClient).2.goroutines.Perm
        busyClient.ListGoroutines.val ∧
      (loadGoroutines goroutinesLoading sampleState busyClient).2.goroutines.Pairwise
        (fun a b => a.ID ≤ b.ID)) ∧
    ((loadThreads goroutinesLoading sampleState busyClient).2.threads.Perm
        busyClient.ListThreads.val ∧
      (loadThreads goroutinesLoading sampleState busyClient).2.threads.Pairwise
        (fun a b => a.ID ≤ b.ID)) ∧
    (goroutinesByID.Less busyClient.ListGoroutines.val 1 0 = true ↔ (1 : Int) < 3) :=
  ⟨(goroutines_threads_sorted goroutinesLoading sampleState busyClient).1 rfl,
    (goroutines_threads_sorted goroutinesLoading sampleState busyClient).2.1 rfl,
    (goroutines_threads_sorted goroutinesLoading sampleState busyClient).2.2.1
      busyClient.ListGoroutines.val 1 0 { ID := 1, ThreadID := 1 } { ID := 3, ThreadID := 0 }
      rfl rfl⟩

/-- C7 on the code: breakpointsByID.Less answers false on every pair of
slots, and loadBreakpoints, after a successful ListBreakpoints that returned
the breakpoints 2 and 1 in this order, leaves them cached in this order, which
is not non-decreasing by ID. -/
theorem loadBreakpoints_unsorted :
    (∀ (bps : List Breakpoint) (i j : Nat), breakpointsByID.Less bps i j = false) ∧
    (loadBreakpoints goroutinesLoading sampleState busyClient).2.breakpoints =
      [{ ID := 2, Name := "", File := "main.go", Line := 20 },
       { ID := 1, Name := "", File := "main.go", Line := 10 }] ∧
    ¬ (loadBreakpoints goroutinesLoading sampleState busyClient).2.breakpoints.Pairwise
        (fun a b => a.ID ≤ b.ID) := by
  refine ⟨fun bps i j => ?_, by decide, by decide⟩
  unfold breakpointsByID.Less
  cases bps[i]? <;> simp

/-! ## Name collisions in loadLocals -/

/-- The display name changename gives to a variable when the names in seen
were walked before it. -/
theorem changename_snd (seen : List String) (m : String → Option Nat)
    (hm : countsOf seen m) (v : Variable) :
    (changename m v).2 =
      { v with Name := if seen.count v.Name = 0 then v.Name
                       else v.Name ++ "(" ++ toString (seen.count v.Name) ++ ")" } := by
  unfold changename
  rw [hm v.Name]
  by_cases hc : seen.count v.Name = 0
  · cases v
    simp_all
  · have : seen.count v.Name - 1 + 1 = seen.count v.Name := by omega
    simp [hc, this]

/-- The map changename hands on accounts for the name just walked. -/
theorem changename_fst (seen : List String) (m : String → Option Nat)
    (hm : countsOf seen m) (v : Variable) :
    countsOf (seen ++ [v.Name]) (changename m v).1 := by
  intro k
  unfold changename
  rw [hm v.Name]
  by_cases hc : seen.count v.Name = 0
  · by_cases hk : k = v.Name
    · simp [hc, hk]
    · have hk2 : ¬ (v.Name = k) := fun h => hk h.symm
      simp [hc, hk, hm k, List.count_append, List.count_cons, hk2]
  · by_cases hk : k = v.Name
    · simp [hc, hk, List.count_append]
      omega
    · have hk2 : ¬ (v.Name = k) := fun h => hk h.symm
      simp [hc, hk, hm k, List.count_append, List.count_cons, hk2]

/-- The loop over a slice keeps its length. -/
theorem changenameEach_length (m : String → Option Nat) (vs : List Variable) :
    (changenameEach m vs).2.length = vs.length := by
  induction vs generalizing m with
  | nil => rfl
  | cons v vs ih => simp [changenameEach, ih]

/-- The loop over args followed by the loop over locals is one loop over
args followed by locals. -/
theorem changenameEach_append (m : String → Option Nat) (xs ys : List Variable) :
    changenameEach m (xs ++ ys) =
      ((changenameEach (changenameEach m xs).1 ys).1,
        (changenameEach m xs).2 ++ (changenameEach (changenameEach m xs).1 ys).2) := by
  induction xs generalizing m with
  | nil => simp [changenameEach]
  | cons v xs ih => simp [changenameEach, ih]

/-- The slot i of the walked slice is the slot i of the slice it was given,
renamed after the names walked before it. -/
theorem changenameEach_getElem? (seen : List String) (m : String → Option Nat)
    (hm : countsOf seen m) (vs : List Variable) (i : Nat) :
    (changenameEach m vs).2[i]? =
      vs[i]?.map (fun v =>
        { v with Name :=
            if (seen ++ (vs.map Variable.Name).take i).count v.Name = 0 then v.Name
            else v.Name ++ "(" ++
              toString ((seen ++ (vs.map Variable.Name).take i).count v.Name) ++ ")" }) := by
  induction vs generalizing seen m i with
  | nil => simp [changenameEach]
  | cons v vs ih =>
    cases i with
    | zero => simp [changenameEach, changename_snd seen m hm v]
    | succ i =>
      have := ih (seen ++ [v.Name]) (changename m v).1 (changename_fst seen m hm v) i
      simpa [changenameEach] using this

/-- C9: the changename walk of loadLocals, over args and then locals, keeps
the length of both slices and the order of their elements, and the element at
position i of the combined sequence, whose name s occurs k times at the
positions before i, comes out with every field but Name unchanged and with
Name s when k = 0 and s followed by (k), k in decimal, when k > 0.  The names
x, y, x, x come out as x, y, x(1), x(2), also through loadLocals when args
x, y and locals x, x are fetched. -/
theorem changenameWalk_display :
    (∀ (args locals : List Variable),
      (changenameWalk args locals).1.length = args.length ∧
      (changenameWalk args locals).2.length = locals.length ∧
      ∀ i : Nat,
        ((changenameWalk args locals).1 ++ (changenameWalk args locals).2)[i]? =
          (args ++ locals)[i]?.map (fun v =>
            { v with Name :=
                if (((args ++ locals).map Variable.Name).take i).count v.Name = 0 then v.Name
                else v.Name ++ "(" ++
                  toString ((((args ++ locals).map Variable.Name).take i).count v.Name)
                  ++ ")" })) ∧
    ((changenameWalk [namedVar "x", namedVar "y"] [namedVar "x", namedVar "x"]).1 ++
      (changenameWalk [namedVar "x", namedVar "y"] [namedVar "x", namedVar "x"]).2).map
        Variable.Name = ["x", "y", "x(1)", "x(2)"] ∧
    ((loadLocals localsLoading sampleState shadowClient).2.args ++
      (loadLocals localsLoading sampleState shadowClient).2.locals).map
        Variable.Name = ["x", "y", "x(1)", "x(2)"] := by
  refine ⟨fun args locals => ⟨?_, ?_, fun i => ?_⟩, by decide, by decide⟩
  · simp [changenameWalk, changenameEach_length]
  · simp [changenameWalk, changenameEach_length]
  · have h0 : countsOf [] (fun _ => none) := fun k => by simp
    have := changenameEach_getElem? [] (fun _ => none) h0 (args ++ locals) i
    rw [changenameEach_append] at this
    simpa [changenameWalk] using this

/-! ## Single flight across the three expansion triggers -/

/-- A trigger on a running expander changes nothing. -/
theorem trigger_of_running (e : Expander) (k : Expansion) (v : Nat)
    (h : e.additionalLoadRunning = true) : e.trigger k v = e := by
  simp [Expander.trigger, h]

/-- The goroutine of a trigger ends with the flag reset. -/
theorem runGoroutine_resets (e : Expander) (k : Expansion) (v : Nat) (r : Reply Variable) :
    (e.runGoroutine k v r).additionalLoadRunning = false := by
  unfold Expander.runGoroutine
  cases e.nodes[v]? <;> rfl

/-- The goroutine of a trigger does not touch the in-flight collection. -/
theorem runGoroutine_inflight (e : Expander) (k : Expansion) (v : Nat) (r : Reply Variable) :
    (e.runGoroutine k v r).inflight = e.inflight := by
  unfold Expander.runGoroutine
  cases e.nodes[v]? <;> rfl

/-- Every trigger keeps the single-flight invariant. -/
theorem trigger_singleFlight (e : Expander) (k : Expansion) (v : Nat)
    (h : e.singleFlight) : (e.trigger k v).singleFlight := by
  obtain ⟨hlen, hrun⟩ := h
  unfold Expander.trigger
  cases hr : e.additionalLoadRunning with
  | true => simpa [Expander.singleFlight, hr] using hlen
  | false =>
    have hnil : e.inflight = [] := by
      by_contra hne
      have := hrun hne
      rw [hr] at this
      exact Bool.false_ne_true this
    simp [Expander.singleFlight, hnil]

/-- Every event keeps the single-flight invariant. -/
theorem expanderStep_singleFlight (e : Expander) (ev : ExpanderEvent)
    (h : e.singleFlight) : (expanderStep e ev).singleFlight := by
  cases ev with
  | trigger k v =>
    cases k
    · exact trigger_singleFlight e .loadMoreMap v h
    · exact trigger_singleFlight e .loadMoreArrayOrSlice v h
    · exact trigger_singleFlight e .loadMoreStruct v h
  | complete i r =>
    simp only [expanderStep]
    cases hi : e.inflight[i]? with
    | none => exact h
    | some kv =>
      have hlt : i < e.inflight.length := by
        rcases List.getElem?_eq_some_iff.mp hi with ⟨hlt, _⟩
        exact hlt
      have hz : (e.inflight.eraseIdx i).length = 0 := by
        rw [List.length_eraseIdx, if_pos hlt]
        have := h.1
        omega
      have hnil : e.inflight.eraseIdx i = [] := List.length_eq_zero.mp hz
      simp [Expander.singleFlight, runGoroutine_inflight, hnil]

/-- Every run from a single-flight state ends in a single-flight state. -/
theorem expanderRun_singleFlight (events : List ExpanderEvent) (e : Expander)
    (h : e.singleFlight) : (events.foldl expanderStep e).singleFlight := by
  induction events generalizing e with
  | nil => exact h
  | cons ev rest ih => exact ih _ (expanderStep_singleFlight e ev h)

/-- C10: from any state with additionalLoadRunning = false and no expansion
goroutine in flight, after any finite sequence of loadMoreMap,
loadMoreArrayOrSlice and loadMoreStruct triggers and completions of their
goroutines, at most one expansion goroutine is in flight; a trigger that finds
additionalLoadRunning = true leaves the whole state as it was (no goroutine
launched, no expression sent to EvalVariable, no node written); and the
goroutine of each trigger, whether EvalVariable answered with an error or not,
ends with additionalLoadRunning = false. -/
theorem expansion_single_flight :
    (∀ (e : Expander) (events : List ExpanderEvent),
      e.additionalLoadRunning = false → e.inflight = [] →
      (events.foldl expanderStep e).inflight.length ≤ 1) ∧
    (∀ (e : Expander) (v : Nat), e.additionalLoadRunning = true →
      loadMoreMap e v = e ∧ loadMoreArrayOrSlice e v = e ∧ loadMoreStruct e v = e) ∧
    (∀ (e : Expander) (k : Expansion) (v : Nat) (r : Reply Variable),
      (e.runGoroutine k v r).additionalLoadRunning = false) ∧
    (∀ (e : Expander) (i : Nat) (r : Reply Variable), i < e.inflight.length →
      (expanderStep e (.complete i r)).additionalLoadRunning = false) := by
  refine ⟨fun e events h1 h2 => ?_, fun e v h => ?_, runGoroutine_resets, fun e i r hi => ?_⟩
  · exact (expanderRun_singleFlight events e ⟨by simp [h2], by simp [h2]⟩).1
  · exact ⟨trigger_of_running e _ v h, trigger_of_running e _ v h, trigger_of_running e _ v h⟩
  · simp only [expanderStep, List.getElem?_eq_getElem hi]
    exact runGoroutine_resets _ _ _ _

/-- C10 at a concrete run: two nodes, loadMoreMap triggered on the first; the
triggers that follow, a failed completion and a later trigger keep at most one
goroutine in flight, each of the three triggers leaves the running expander as
it is, and the completion of the goroutine in flight, failed, resets the flag. -/
theorem expansion_single_flight_witness :
    ([ExpanderEvent.trigger .loadMoreMap 0, ExpanderEvent.trigger .loadMoreStruct 1,
        ExpanderEvent.complete 0 { val := structNode, err := some "read error" },
        ExpanderEvent.trigger .loadMoreStruct 1].foldl expanderStep
        (expanderInit [mapNode, structNode])).inflight.length ≤ 1 ∧
    (loadMoreMap busyExpander 1 = busyExpander ∧
      loadMoreArrayOrSlice busyExpander 1 = busyExpander ∧
      loadMoreStruct busyExpander 1 = busyExpander) ∧
    (expanderStep busyExpander
      (.complete 0 { val := structNode, err := some "read error" })).additionalLoadRunning
      = false :=
  ⟨expansion_single_flight.1 (expanderInit [mapNode, structNode]) _ rfl rfl,
    expansion_single_flight.2.1 busyExpander 1 rfl,
    expansion_single_flight.2.2.2 busyExpander 0 _ (by decide)⟩

/-! ## Rendering a map node, expansion outcomes -/

/-- The reflect.Map case of showVariable, for a readable map node that is not
a nil below the top level and whose tree node is open: the tree node, the rows
of the pairs, and the affordance for the pairs not yet loaded. -/
theorem showVariable_map (ui : UI) (depth : Nat) (addr : Bool) (name : String) (v : Variable)
    (hk : v.Kind = .Map) (hu : v.Unreadable = "") (hd : depth = 0 ∨ v.Addr ≠ 0)
    (ho : ui.TreePush (displayName addr name v) = true) :
    showVariable ui depth addr name v =
      (showMapPairs ui depth addr 0 v.Children).map fun rows =>
        .tree (displayName addr name v) :: (rows ++ moreMap ui v) := by
  obtain ⟨Name, Addr, OnlyAddr, Typ, Kind, Value, Len, Cap, Children, Unreadable⟩ := v
  simp only at hk hu hd ho
  subst hk hu
  rw [showVariable]
  have hnil : ¬ (0 < depth ∧ Addr = 0) := by omega
  simp [hnil, ho]

/-- The affordance of a slice or array node is absent when Len equals the
number of children. -/
theorem moreArrayOrSlice_of_len (ui : UI) (v : Variable)
    (h : v.Len = (v.Children.length : Int)) : moreArrayOrSlice ui v = [] := by
  simp [moreArrayOrSlice, h]

/-- The affordance of a map node is absent when Len equals the number of
pairs. -/
theorem moreMap_of_len (ui : UI) (v : Variable)
    (h : v.Len = ((v.Children.length / 2 : Nat) : Int)) : moreMap ui v = [] := by
  simp [moreMap, h]

/-- What the error branch of the two slicing goroutines writes: the children
stay, Len becomes the number of children (slice, array) or of pairs (map), and
the condition for the N more button is false on the node written. -/
theorem failed_node_pins_len (v : Variable) (r : Reply Variable)
    (h : r.err.isSome = true) :
    ((loadMoreArrayOrSliceNode v r).Children = v.Children ∧
      (loadMoreArrayOrSliceNode v r).Len = (v.Children.length : Int) ∧
      (∀ ui : UI, moreArrayOrSlice ui (loadMoreArrayOrSliceNode v r) = []) ∧
      (∀ (ui : UI) (depth : Nat) (addr : Bool),
        showArrayOrSliceContents ui depth addr (loadMoreArrayOrSliceNode v r) =
          showElements ui depth addr 0 v.Children)) ∧
    ((loadMoreMapNode v r).Children = v.Children ∧
      (loadMoreMapNode v r).Len = ((v.Children.length / 2 : Nat) : Int) ∧
      (∀ ui : UI, moreMap ui (loadMoreMapNode v r) = []) ∧
      (∀ (ui : UI) (depth : Nat) (addr : Bool) (name : String),
        v.Kind = .Map → v.Unreadable = "" → (depth = 0 ∨ v.Addr ≠ 0) →
        ui.TreePush (displayName addr name v) = true →
        showVariable ui depth addr name (loadMoreMapNode v r) =
          (showMapPairs ui depth addr 0 v.Children).map fun rows =>
            .tree (displayName addr name v) :: rows)) := by
  obtain ⟨e, he⟩ := Option.isSome_iff_exists.mp h
  have hs : loadMoreArrayOrSliceNode v r = { v with Len := Int.ofNat v.Children.length } := by
    simp [loadMoreArrayOrSliceNode, he]
  have hm : loadMoreMapNode v r = { v with Len := Int.ofNat (v.Children.length / 2) } := by
    simp [loadMoreMapNode, he]
  refine ⟨⟨by rw [hs], by rw [hs]; rfl, fun ui => ?_, fun ui depth addr => ?_⟩,
    ⟨by rw [hm], by rw [hm]; rfl, fun ui => ?_, fun ui depth addr name hk hu hd ho => ?_⟩⟩
  · exact moreArrayOrSlice_of_len ui _ (by rw [hs]; rfl)
  · rw [showArrayOrSliceContents, moreArrayOrSlice_of_len ui _ (by rw [hs]; rfl), hs]
    simp
  · exact moreMap_of_len ui _ (by rw [hm]; rfl)
  · have hdn : displayName addr name (loadMoreMapNode v r) = displayName addr name v := by
      rw [hm]; rfl
    rw [showVariable_map ui depth addr name (loadMoreMapNode v r) (by rw [hm]; exact hk)
      (by rw [hm]; exact hu) (by rw [hm]; exact hd) (by rw [hdn]; exact ho),
      moreMap_of_len ui _ (by rw [hm]; rfl), hdn]
    rw [hm]
    simp

/-- The node a goroutine of the expander leaves at the place of the node it
was launched on. -/
theorem runGoroutine_node (e : Expander) (k : Expansion) (i : Nat) (v : Variable)
    (r : Reply Variable) (hv : e.nodes[i]? = some v) :
    (e.runGoroutine k i r).nodes[i]? = some (k.node v r) := by
  have hlt : i < e.nodes.length := by
    rcases List.getElem?_eq_some_iff.mp hv with ⟨hlt, _⟩
    exact hlt
  simp [Expander.runGoroutine, hv, hlt]

/-- On an expander at rest, a trigger followed by the completion of the
goroutine it launched leaves the node that goroutine writes. -/
theorem complete_after_trigger (e : Expander) (k : Expansion) (i : Nat) (v : Variable)
    (r : Reply Variable) (h1 : e.additionalLoadRunning = false) (h2 : e.inflight = [])
    (hv : e.nodes[i]? = some v) :
    (expanderStep (e.trigger k i) (.complete 0 r)).nodes[i]? = some (k.node v r) := by
  have hlt : i < e.nodes.length := by
    rcases List.getElem?_eq_some_iff.mp hv with ⟨hlt, _⟩
    exact hlt
  simp [expanderStep, Expander.trigger, h1, h2, Expander.runGoroutine, hv, hlt]

/-- C11: when the fetch of the goroutine started by loadMoreArrayOrSlice or by
loadMoreMap on the node v fails, the node the goroutine leaves in the place of
v (also when the goroutine is reached through the trigger on an expander at
rest and its completion) has the children of v and has Len equal to the number
of children (slice, array) or of pairs (map), so that on every later render of
that node the condition for the N more button is false:
showArrayOrSliceContents draws the elements and nothing after them, and
showVariable on an open map node draws the tree node and the pairs and nothing
after them. -/
theorem failed_expansion_pins_len (e : Expander) (i : Nat) (v : Variable)
    (r : Reply Variable) (hv : e.nodes[i]? = some v) (h : r.err.isSome = true) :
    (∃ n, (e.runGoroutine .loadMoreArrayOrSlice i r).nodes[i]? = some n ∧
      (e.additionalLoadRunning = false → e.inflight = [] →
        (expanderStep (loadMoreArrayOrSlice e i) (.complete 0 r)).nodes[i]? = some n) ∧
      n.Children = v.Children ∧
      n.Len = (v.Children.length : Int) ∧
      (∀ ui : UI, moreArrayOrSlice ui n = []) ∧
      (∀ (ui : UI) (depth : Nat) (addr : Bool),
        showArrayOrSliceContents ui depth addr n = showElements ui depth addr 0 v.Children)) ∧
    (∃ n, (e.runGoroutine .loadMoreMap i r).nodes[i]? = some n ∧
      (e.additionalLoadRunning = false → e.inflight = [] →
        (expanderStep (loadMoreMap e i) (.complete 0 r)).nodes[i]? = some n) ∧
      n.Children = v.Children ∧
      n.Len = ((v.Children.length / 2 : Nat) : Int) ∧
      (∀ ui : UI, moreMap ui n = []) ∧
      (∀ (ui : UI) (depth : Nat) (addr : Bool) (name : String),
        v.Kind = .Map → v.Unreadable = "" → (depth = 0 ∨ v.Addr ≠ 0) →
        ui.TreePush (displayName addr name v) = true →
        showVariable ui depth addr name n =
          (showMapPairs ui depth addr 0 v.Children).map fun rows =>
            .tree (displayName addr name v) :: rows)) := by
  have hn := failed_node_pins_len v r h
  refine ⟨⟨loadMoreArrayOrSliceNode v r, ?_, fun h1 h2 => ?_, hn.1⟩,
    ⟨loadMoreMapNode v r, ?_, fun h1 h2 => ?_, hn.2⟩⟩
  · exact runGoroutine_node e .loadMoreArrayOrSlice i v r hv
  · exact complete_after_trigger e .loadMoreArrayOrSlice i v r h1 h2 hv
  · exact runGoroutine_node e .loadMoreMap i v r hv
  · exact complete_after_trigger e .loadMoreMap i v r h1 h2 hv

/-- C11 at a concrete expander: the slice of length 5 with two elements and
the map of length 10 with four pairs, each after the trigger on it and the
completion of its goroutine with a failed fetch. -/
theorem failed_expansion_pins_len_witness :
    (∃ n, (expanderStep (loadMoreArrayOrSlice (expanderInit [fiveSlice, tenMap]) 0)
        (.complete 0 failedEval)).nodes[0]? = some n ∧
      n.Children = fiveSlice.Children ∧ n.Len = 2 ∧
      showArrayOrSliceContents allOpen 0 false n =
        showElements allOpen 0 false 0 fiveSlice.Children) ∧
    (∃ n, (expanderStep (loadMoreMap (expanderInit [fiveSlice, tenMap]) 1)
        (.complete 0 failedEval)).nodes[1]? = some n ∧
      n.Children = tenMap.Children ∧ n.Len = 4 ∧
      showVariable allOpen 0 false "m" n =
        some [.tree "m map[int]int", .label "[1] int = 10", .label "[2] int = 20",
          .label "[3] int = 30", .label "[4] int = 40"]) :=
  ⟨Exists.imp (fun _ hn => ⟨hn.2.1 rfl rfl, hn.2.2.1, hn.2.2.2.1, hn.2.2.2.2.2 allOpen 0 false⟩)
      (failed_expansion_pins_len (expanderInit [fiveSlice, tenMap]) 0 fiveSlice failedEval
        rfl rfl).1,
    Exists.imp (fun _ hn => ⟨hn.2.1 rfl rfl, hn.2.2.1, hn.2.2.2.1,
        hn.2.2.2.2.2 allOpen 0 false "m" rfl rfl (Or.inl rfl) rfl⟩)
      (failed_expansion_pins_len (expanderInit [fiveSlice, tenMap]) 1 tenMap failedEval
        rfl rfl).2⟩

/-- C12: when the fetch started by loadMoreStruct on the node v succeeds with
the value lv, the goroutine leaves in the place of v a node that has the Name
of v and, in every other field, the content of lv. -/
theorem struct_reload_keeps_name (e : Expander) (i : Nat) (v : Variable) (r : Reply Variable)
    (hv : e.nodes[i]? = some v) (hr : r.err = none) :
    ∃ n, (e.runGoroutine .loadMoreStruct i r).nodes[i]? = some n ∧
      n = loadMoreStructNode v r ∧
      n.Name = v.Name ∧ n.Addr = r.val.Addr ∧ n.OnlyAddr = r.val.OnlyAddr ∧
      n.Typ = r.val.Typ ∧ n.Kind = r.val.Kind ∧ n.Value = r.val.Value ∧
      n.Len = r.val.Len ∧ n.Cap = r.val.Cap ∧ n.Children = r.val.Children ∧
      n.Unreadable = r.val.Unreadable := by
  have hlt : i < e.nodes.length := by
    rcases List.getElem?_eq_some_iff.mp hv with ⟨hlt, _⟩
    exact hlt
  refine ⟨loadMoreStructNode v r, ?_, rfl, ?_⟩
  · simp [Expander.runGoroutine, hv, Expansion.node, hlt]
  · simp [loadMoreStructNode, hr]

/-- C12 at a concrete node: the struct node st, not yet loaded, and a fetch
that returns its three fields under another name. -/
theorem struct_reload_keeps_name_witness :
    ∃ n, ((expanderInit [mapNode, structNode]).runGoroutine .loadMoreStruct 1
        structFetched).nodes[1]? = some n ∧
      n = loadMoreStructNode structNode structFetched ∧
      n.Name = structNode.Name ∧ n.Addr = structFetched.val.Addr ∧
      n.OnlyAddr = structFetched.val.OnlyAddr ∧
      n.Typ = structFetched.val.Typ ∧ n.Kind = structFetched.val.Kind ∧
      n.Value = structFetched.val.Value ∧
      n.Len = structFetched.val.Len ∧ n.Cap = structFetched.val.Cap ∧
      n.Children = structFetched.val.Children ∧
      n.Unreadable = structFetched.val.Unreadable :=
  struct_reload_keeps_name (expanderInit [mapNode, structNode]) 1 structNode structFetched
    rfl rfl

/-- The rows of a run of pairs followed by more children are the rows of the
run followed by the rows of the other children, numbered on. -/
theorem showMapPairs_append (ui : UI) (depth : Nat) (addr : Bool) (n : Nat) :
    ∀ (i : Nat) (a b : List Variable), a.length = 2 * n →
      showMapPairs ui depth addr i (a ++ b) =
        match showMapPairs ui depth addr i a with
        | none => none
        | some rows => (showMapPairs ui depth addr (i + 2 * n) b).map fun more => rows ++ more := by
  induction n with
  | zero =>
    intro i a b ha
    have : a = [] := List.length_eq_zero.mp (by omega)
    subst this
    cases hb : showMapPairs ui depth addr i b <;> simp [showMapPairs, hb]
  | succ n ih =>
    intro i a b ha
    match a, ha with
    | key :: value :: rest, ha =>
      have hrest : rest.length = 2 * n := by simp at ha; omega
      have hi : i + 2 * (n + 1) = i + 2 + 2 * n := by omega
      simp only [List.cons_append, showMapPairs, List.append_eq, ih (i + 2) rest b hrest, hi]
      generalize (if key.Children.length = 0 ∧ key.Value.utf8ByteSize < 20 then
          showVariable ui (depth + 1) addr (keyName key) value
        else
          match showVariable ui (depth + 1) addr ("[" ++ toString (i / 2) ++ " key]") key with
          | none => none
          | some rows =>
            Option.map (fun more => rows ++ more)
              (showVariable ui (depth + 1) addr ("[" ++ toString (i / 2) ++ " value]") value)) = pair
      cases pair with
      | none => rfl
      | some rows =>
        cases showMapPairs ui depth addr (i + 2) rest with
        | none => rfl
        | some mid =>
          cases showMapPairs ui depth addr (i + 2 + 2 * n) b with
          | none => rfl
          | some last => simp

/-- The verb %d prints a non-negative int as the natural number it is. -/
theorem toString_sub_cast (L m : Nat) (h : m < L) :
    toString ((L : Int) - (m : Int)) = toString (L - m) := by
  have : (L : Int) - (m : Int) = ((L - m : Nat) : Int) := by omega
  rw [this]
  rfl

/-- An open, readable map node with 2m children and Len = L > m is drawn with
the button (L-m) more after its pairs; the node the success branch of the
goroutine of loadMoreMap writes for a fetch of L-m pairs has the old children
followed by the fetched ones and is drawn without a button. -/
theorem map_node_more_then_all (ui : UI) (depth : Nat) (addr : Bool) (name : String)
    (v : Variable) (m L : Nat)
    (hk : v.Kind = .Map) (hu : v.Unreadable = "") (hd : depth = 0 ∨ v.Addr ≠ 0)
    (ho : ui.TreePush (displayName addr name v) = true)
    (hc : v.Children.length = 2 * m) (hL : v.Len = (L : Int)) (hlt : m < L) :
    showVariable ui depth addr name v =
      ((showMapPairs ui depth addr 0 v.Children).map fun rows =>
        .tree (displayName addr name v) ::
          (rows ++
            (if ui.ButtonText (toString (L - m) ++ " more") then
              [.button (toString (L - m) ++ " more"), .call .loadMoreMap v]
            else [.button (toString (L - m) ++ " more")]))) ∧
    ∀ r : Reply Variable, r.err = none → r.val.Children.length = 2 * (L - m) →
      (loadMoreMapNode v r).Children = v.Children ++ r.val.Children ∧
      (loadMoreMapNode v r).Children.length = 2 * L ∧
      showVariable ui depth addr name (loadMoreMapNode v r) =
        match showMapPairs ui depth addr 0 v.Children with
        | none => none
        | some old =>
          (showMapPairs ui depth addr (2 * m) r.val.Children).map fun new =>
            .tree (displayName addr name v) :: (old ++ new) := by
  have hhalf : v.Children.length / 2 = m := by omega
  constructor
  · rw [showVariable_map ui depth addr name v hk hu hd ho]
    have hne : ((m : Nat) : Int) ≠ (L : Int) := by omega
    simp only [moreMap, hhalf, hL, ne_eq, hne, not_false_eq_true, if_true,
      toString_sub_cast L m hlt]
  · intro r hr hrc
    have hm : loadMoreMapNode v r = { v with Children := v.Children ++ r.val.Children } := by
      simp [loadMoreMapNode, hr]
    have hlen : (v.Children ++ r.val.Children).length = 2 * L := by
      rw [List.length_append, hc, hrc]; omega
    have hdn : displayName addr name (loadMoreMapNode v r) = displayName addr name v := by
      rw [hm]; rfl
    refine ⟨by rw [hm], by rw [hm]; exact hlen, ?_⟩
    have hmore : moreMap ui (loadMoreMapNode v r) = [] :=
      moreMap_of_len ui _ (by
        rw [hm]
        show v.Len = (((v.Children ++ r.val.Children).length / 2 : Nat) : Int)
        rw [hL, hlen]
        congr 1
        omega)
    rw [showVariable_map ui depth addr name (loadMoreMapNode v r) (by rw [hm]; exact hk)
      (by rw [hm]; exact hu) (by rw [hm]; exact hd) (by rw [hdn]; exact ho), hmore, hdn]
    have hch : (loadMoreMapNode v r).Children = v.Children ++ r.val.Children := by rw [hm]
    rw [hch, showMapPairs_append ui depth addr m 0 v.Children r.val.Children hc, Nat.zero_add]
    cases showMapPairs ui depth addr 0 v.Children with
    | none => rfl
    | some old =>
      cases showMapPairs ui depth addr (2 * m) r.val.Children with
      | none => rfl
      | some new => simp

/-- C13: an open, readable map node v with 2m children and Len = L > m is
drawn as its tree node, the rows of its m pairs, and a button reading (L-m)
more that calls loadMoreMap on the node when clicked; and when the goroutine
started by loadMoreMap on v ends after a successful fetch of L-m pairs (also
when it is reached through the trigger on an expander at rest and its
completion), the node it leaves in the place of v has the old children
followed by the fetched ones, 2L in all, and is drawn as its tree node, the
rows of the m old pairs and the rows of the L-m new pairs, with no button
after them. -/
theorem map_more_then_all (ui : UI) (depth : Nat) (addr : Bool) (name : String)
    (v : Variable) (m L : Nat)
    (hk : v.Kind = .Map) (hu : v.Unreadable = "") (hd : depth = 0 ∨ v.Addr ≠ 0)
    (ho : ui.TreePush (displayName addr name v) = true)
    (hc : v.Children.length = 2 * m) (hL : v.Len = (L : Int)) (hlt : m < L) :
    showVariable ui depth addr name v =
      ((showMapPairs ui depth addr 0 v.Children).map fun rows =>
        .tree (displayName addr name v) ::
          (rows ++
            (if ui.ButtonText (toString (L - m) ++ " more") then
              [.button (toString (L - m) ++ " more"), .call .loadMoreMap v]
            else [.button (toString (L - m) ++ " more")]))) ∧
    ∀ (e : Expander) (i : Nat) (r : Reply Variable), e.nodes[i]? = some v →
      r.err = none → r.val.Children.length = 2 * (L - m) →
      ∃ n, (e.runGoroutine .loadMoreMap i r).nodes[i]? = some n ∧
        (e.additionalLoadRunning = false → e.inflight = [] →
          (expanderStep (loadMoreMap e i) (.complete 0 r)).nodes[i]? = some n) ∧
        n.Children = v.Children ++ r.val.Children ∧
        n.Children.length = 2 * L ∧
        showVariable ui depth addr name n =
          match showMapPairs ui depth addr 0 v.Children with
          | none => none
          | some old =>
            (showMapPairs ui depth addr (2 * m) r.val.Children).map fun new =>
              .tree (displayName addr name v) :: (old ++ new) := by
  have hn := map_node_more_then_all ui depth addr name v m L hk hu hd ho hc hL hlt
  refine ⟨hn.1, fun e i r hv hr hrc => ⟨loadMoreMapNode v r, ?_, fun h1 h2 => ?_, hn.2 r hr hrc⟩⟩
  · exact runGoroutine_node e .loadMoreMap i v r hv
  · exact complete_after_trigger e .loadMoreMap i v r h1 h2 hv

/-- C13 at a concrete expander: the map of length 10 with four pairs shows its
four pairs and the button 6 more; after loadMoreMap is triggered on it and its
goroutine completes with the six missing pairs, the node in its place has
twenty children and shows ten pairs and no button. -/
theorem map_more_then_all_witness :
    showVariable allOpen 0 false "m" tenMap =
      some [.tree "m map[int]int", .label "[1] int = 10", .label "[2] int = 20",
        .label "[3] int = 30", .label "[4] int = 40", .button "6 more"] ∧
    ∃ n, (expanderStep (loadMoreMap (expanderInit [fiveSlice, tenMap]) 1)
        (.complete 0 sixPairs)).nodes[1]? = some n ∧
      n.Children = tenMap.Children ++ sixPairs.val.Children ∧
      n.Children.length = 2 * 10 ∧
      showVariable allOpen 0 false "m" n =
        some [.tree "m map[int]int", .label "[1] int = 10", .label "[2] int = 20",
          .label "[3] int = 30", .label "[4] int = 40", .label "[5] int = 50",
          .label "[6] int = 60", .label "[7] int = 70", .label "[8] int = 80",
          .label "[9] int = 90", .label "[10] int = 100"] :=
  ⟨(map_more_then_all allOpen 0 false "m" tenMap 4 10 rfl rfl (Or.inl rfl) rfl rfl rfl
      (by decide)).1,
    Exists.imp (fun _ hn => ⟨hn.2.1 rfl rfl, hn.2.2.1, hn.2.2.2.1, hn.2.2.2.2⟩)
      ((map_more_then_all allOpen 0 false "m" tenMap 4 10 rfl rfl (Or.inl rfl) rfl rfl rfl
        (by decide)).2 (expanderInit [fiveSlice, tenMap]) 1 sixPairs rfl rfl rfl)⟩

/-! ## Distinct display names -/

/-- A digit character has the value of the digit it was made from. -/
theorem digitValue_digitChar (k : Nat) (h : k < 10) : digitValue (Nat.digitChar k) = k := by
  interval_cases k <;> rfl

/-- The value of a decimal text with one more character. -/
theorem decimalValue_concat (cs : List Char) (c : Char) :
    decimalValue (cs ++ [c]) = decimalValue cs * 10 + digitValue c := by
  simp [decimalValue, List.foldl_append]

/-- The digits Nat.toDigitsCore puts in front of its accumulator read back as
the number they were made from. -/
theorem toDigitsCore_value (fuel : Nat) :
    ∀ (n : Nat) (ds : List Char), n < fuel →
      ∃ front, Nat.toDigitsCore 10 fuel n ds = front ++ ds ∧ decimalValue front = n := by
  induction fuel with
  | zero => intro n ds h; omega
  | succ fuel ih =>
    intro n ds h
    unfold Nat.toDigitsCore
    by_cases hz : n / 10 = 0
    · refine ⟨[Nat.digitChar (n % 10)], by simp [hz], ?_⟩
      have : decimalValue [Nat.digitChar (n % 10)] = digitValue (Nat.digitChar (n % 10)) := by
        simp [decimalValue]
      rw [this, digitValue_digitChar _ (Nat.mod_lt _ (by decide))]
      omega
    · obtain ⟨front, h1, h2⟩ := ih (n / 10) (Nat.digitChar (n % 10) :: ds) (by omega)
      refine ⟨front ++ [Nat.digitChar (n % 10)], by simp [hz, h1], ?_⟩
      rw [decimalValue_concat, h2, digitValue_digitChar _ (Nat.mod_lt _ (by decide))]
      omega

/-- The text %d prints for a counter reads back as the counter. -/
theorem decimalValue_toString (n : Nat) : decimalValue (toString n).data = n := by
  obtain ⟨front, h1, h2⟩ := toDigitsCore_value (n + 1) n [] (by omega)
  have : (toString n).data = Nat.toDigitsCore 10 (n + 1) n [] := rfl
  rw [this, h1, List.append_nil, h2]

/-- Two texts that agree after a first opening bracket agree before it and
after it. -/
theorem split_at_bracket (l1 l2 r1 r2 : List Char) (h1 : '(' ∉ l1) (h2 : '(' ∉ l2)
    (h : l1 ++ '(' :: r1 = l2 ++ '(' :: r2) : l1 = l2 ∧ r1 = r2 := by
  induction l1 generalizing l2 with
  | nil =>
    cases l2 with
    | nil => simpa using h
    | cons c l2 =>
      simp at h
      simp [← h.1] at h2
  | cons c l1 ih =>
    cases l2 with
    | nil =>
      simp at h
      simp [h.1] at h1
    | cons d l2 =>
      simp at h h1 h2
      obtain ⟨hl, hr⟩ := ih l2 h1.2 h2.2 h.2
      exact ⟨by rw [h.1, hl], hr⟩

/-- The characters of a display name with a counter. -/
theorem suffixed_data (s : String) (k : Nat) :
    (s ++ "(" ++ toString k ++ ")").data = s.data ++ '(' :: ((toString k).data ++ [')']) := by
  simp [String.data_append]

/-- Two display names made from names without an opening bracket are equal
only if the names and the counters are. -/
theorem display_inj (s t : String) (a b : Nat) (hs : '(' ∉ s.data) (ht : '(' ∉ t.data)
    (h : (if a = 0 then s else s ++ "(" ++ toString a ++ ")") =
         (if b = 0 then t else t ++ "(" ++ toString b ++ ")")) :
    s = t ∧ a = b := by
  by_cases ha : a = 0 <;> by_cases hb : b = 0
  · simp only [ha, hb, if_true] at h
    exact ⟨h, by rw [ha, hb]⟩
  · simp only [ha, hb, if_true, if_false] at h
    have hd := congrArg String.data h
    rw [suffixed_data] at hd
    rw [hd] at hs
    simp at hs
  · simp only [ha, hb, if_true, if_false] at h
    have hd := congrArg String.data h
    rw [suffixed_data] at hd
    rw [← hd] at ht
    simp at ht
  · simp only [ha, hb, if_false] at h
    have hd := congrArg String.data h
    rw [suffixed_data, suffixed_data] at hd
    obtain ⟨h1, h2⟩ := split_at_bracket _ _ _ _ hs ht hd
    have h3 : (toString a).data = (toString b).data := List.append_cancel_right h2
    refine ⟨String.ext h1, ?_⟩
    rw [← decimalValue_toString a, ← decimalValue_toString b, h3]

/-- A list of display names, each made from the name at its position and the
number of earlier occurrences of that name, has no repetition when no name
contains an opening bracket. -/
theorem renamed_nodup (names out : List String)
    (hout : ∀ i : Nat, out[i]? = names[i]?.map (fun s =>
      if (names.take i).count s = 0 then s
      else s ++ "(" ++ toString ((names.take i).count s) ++ ")"))
    (hp : ∀ s ∈ names, '(' ∉ s.data) : out.Nodup := by
  rw [List.nodup_iff_getElem?_ne_getElem?]
  intro i j hij hj heq
  rw [hout i, hout j] at heq
  have hjn : j < names.length := by
    by_contra hge
    have hnone : names[j]? = none := List.getElem?_eq_none (by omega)
    have := hout j
    rw [hnone, List.getElem?_eq_getElem hj] at this
    simp at this
  have hin : i < names.length := by omega
  rw [List.getElem?_eq_getElem hin, List.getElem?_eq_getElem hjn] at heq
  simp only [Option.map_some', Option.some.injEq] at heq
  obtain ⟨hst, hcnt⟩ := display_inj names[i] names[j] _ _
    (hp _ (List.getElem_mem hin)) (hp _ (List.getElem_mem hjn)) heq
  have hmono : (names.take (i + 1)).count names[j] ≤ (names.take j).count names[j] :=
    (List.take_sublist_take_left names (by omega)).count_le _
  rw [List.take_succ, List.getElem?_eq_getElem hin, List.count_append, hst] at hmono
  rw [hst] at hcnt
  simp at hmono
  omega

/-- C14: when no name among the arguments and locals handed to the changename
walk of loadLocals contains the character (, the display names the walk
produces, arguments first and locals after, are pairwise distinct. -/
theorem changenameWalk_distinct (args locals : List Variable)
    (h : ∀ v ∈ args ++ locals, '(' ∉ v.Name.data) :
    (((changenameWalk args locals).1 ++ (changenameWalk args locals).2).map
      Variable.Name).Nodup := by
  apply renamed_nodup ((args ++ locals).map Variable.Name)
  · intro i
    have h0 : countsOf [] (fun _ => none) := fun k => by simp
    have := changenameEach_getElem? [] (fun _ => none) h0 (args ++ locals) i
    rw [changenameEach_append] at this
    simp only [changenameWalk, List.getElem?_map, this, List.nil_append, Option.map_map]
    rfl
  · intro s hs
    obtain ⟨v, hv, rfl⟩ := List.mem_map.mp hs
    exact h v hv

/-- C14 at a concrete frame: arguments x, y and locals x, x. -/
theorem changenameWalk_distinct_witness :
    (((changenameWalk [namedVar "x", namedVar "y"] [namedVar "x", namedVar "x"]).1 ++
      (changenameWalk [namedVar "x", namedVar "y"] [namedVar "x", namedVar "x"]).2).map
      Variable.Name).Nodup :=
  changenameWalk_distinct [namedVar "x", namedVar "y"] [namedVar "x", namedVar "x"]
    (by decide)

end Gdlv
